import Mathlib

/-!
Shallow embedding of the unified authentication and authorization layer of the
anything-LayerOne-LLM server: credential classification, admin token validation,
remote introspection with caching, external user provisioning, and workspace
access scoping.  Each definition is translated from the corresponding JavaScript
source file; theorems settle the specification claims about those functions.
-/

set_option maxHeartbeats 1000000
set_option maxRecDepth 8000

deriving instance DecidableEq for Except

namespace LayerOne

/-! ## JavaScript value helpers

JavaScript middleware code relies on truthiness of strings, numbers and objects.
These helpers make those coercions explicit. -/

/-- `p` is a leading segment of `q` (character-list comparison). -/
def leadsChars : List Char → List Char → Bool
  | [], _ => true
  | _ :: _, [] => false
  | a :: as, b :: bs => a = b && leadsChars as bs

/-- JS `s.startsWith(patt)`. -/
def jsStartsWith (s patt : String) : Bool := leadsChars patt.data s.data

/-- Split a character list on a separator character (JS `split` semantics:
adjacent separators yield empty fields). -/
def splitChars (sep : Char) : List Char → List Char → List (List Char)
  | [], acc => [acc.reverse]
  | c :: cs, acc =>
      if c = sep then acc.reverse :: splitChars sep cs []
      else splitChars sep cs (c :: acc)

/-- JS `s.split(sep)` for a single-character separator. -/
def jsSplit (s : String) (sep : Char) : List String :=
  (splitChars sep s.data []).map String.mk

/-- JS `s.trim()`. -/
def jsTrim (s : String) : String :=
  String.mk
    (((s.data.dropWhile Char.isWhitespace).reverse.dropWhile
        Char.isWhitespace).reverse)

/-- JS `s.toLowerCase()` (ASCII). -/
def jsToLower (s : String) : String := String.mk (s.data.map Char.toLower)

/-- JS `s.split("#")[0]`: everything before the first `#`. -/
def beforeHash (s : String) : String :=
  String.mk (s.data.takeWhile (fun c => c ≠ '#'))

/-- A JavaScript `role` claim value: either a string or an object
such as `{ id: 1, name: "admin" }`. -/
inductive RoleVal where
  | str (s : String)
  | obj (id : Nat) (name : String)
deriving DecidableEq

/-- JS truthiness of an optional role value: `undefined`/`null` and `""` are
falsy; every object and every non-empty string is truthy. -/
def roleTruthy : Option RoleVal → Bool
  | some (.str s) => s ≠ ""
  | some (.obj _ _) => true
  | none => false

/-- A JavaScript `id` claim, which is a number for internally issued tokens and
a string for externally issued ones. -/
inductive JsId where
  | num (n : Nat)
  | str (s : String)
deriving DecidableEq

/-- JS truthiness of an optional string: `undefined`, `null` and `""` are falsy. -/
def strTruthy : Option String → Bool
  | some s => s ≠ ""
  | none => false

/-- JS truthiness of an optional id: `undefined`, `null`, `0` and `""` are falsy. -/
def idTruthy : Option JsId → Bool
  | some (.num n) => n ≠ 0
  | some (.str s) => s ≠ ""
  | none => false

/-- Normalize an optional string through JS truthiness: `some ""` behaves like
`none` wherever the value is used in a boolean position. -/
def strOptNorm : Option String → Option String
  | some s => if s = "" then none else some s
  | none => none

/-- JS `a || b` on optional strings (empty string is falsy). -/
def jsOrStr (a b : Option String) : Option String :=
  match a with
  | some s => if s = "" then strOptNorm b else some s
  | none => strOptNorm b

/-- JS `r || dflt` on an optional role value. -/
def jsOrRole (r : Option RoleVal) (dflt : RoleVal) : RoleVal :=
  if roleTruthy r then r.getD dflt else dflt

/-! ## Role mapping (`server/utils/auth/auditAuth.js`, `mapExternalRoleToAnythingLLMRole`)

```js
const roleMap = { admin: "admin", user: "default" };
const roleName = externalRole?.name || externalRole;
return roleMap[roleName] || "default";
```
-/

/-- The lookup key produced by `externalRole?.name || externalRole`: for an
object role a truthy `name` is the key, while a falsy `name` falls back to the
object itself, which is not a string key of the map; for a string role the
string itself is the key; an absent (`undefined`/`null`) role yields no string
key and misses the map. -/
def roleMapKey : Option RoleVal → Option String
  | some (.obj _ name) => if name = "" then none else some name
  | some (.str s) => some s
  | none => none

/-- The member names every plain object literal inherits from
`Object.prototype`; bracket lookup with one of these keys returns a truthy
inherited function or object (never `undefined`), so `|| "default"` does not
replace it. -/
def objectProtoKeys : List String :=
  ["constructor", "hasOwnProperty", "isPrototypeOf", "propertyIsEnumerable",
   "toLocaleString", "toString", "valueOf", "__proto__", "__defineGetter__",
   "__defineSetter__", "__lookupGetter__", "__lookupSetter__"]

/-- A value the role-map lookup can produce: one of the table's own string
entries (or the `"default"` fallback), or a truthy member inherited from
`Object.prototype` — a function or object, not a string. -/
inductive RoleMapResult where
  | str (s : String)
  | protoMember (name : String)
deriving DecidableEq

/-- The role table `{ admin: "admin", user: "default" }` under JS bracket
lookup: own entries first, then the prototype chain of the object literal. -/
def roleMap (key : String) : Option RoleMapResult :=
  if key = "admin" then some (.str "admin")
  else if key = "user" then some (.str "default")
  else if objectProtoKeys.contains key then some (.protoMember key)
  else none

/-- `mapExternalRoleToAnythingLLMRole` from `server/utils/auth/auditAuth.js`:
`roleMap[roleName] || "default"`.  A miss (`undefined`, falsy) yields
`"default"`; an inherited `Object.prototype` member is truthy and is returned
as-is. -/
def mapExternalRoleToAnythingLLMRole (externalRole : Option RoleVal) :
    RoleMapResult :=
  match roleMapKey externalRole with
  | some k => (roleMap k).getD (.str "default")
  | none => .str "default"

/-- The string Prisma stores for a `role` field value: a string passes its
field validation, while an inherited function/object member fails it (a
thrown `PrismaClientValidationError`, which is not a `P2002` unique-constraint
error). -/
def roleString : RoleMapResult → Option String
  | .str s => some s
  | .protoMember _ => none

/-! ## Introspection results and the keystone in-memory cache
(`server/utils/auth/keystoneIntrospection.js`) -/

/-- The JSON body returned by the introspection endpoint, restricted to the
fields the authentication layer reads. -/
structure Introspection where
  active : Bool
  sub : Option String
  id : Option String
  role : Option RoleVal
  scope : Option String
  session_id : Option String
  sid : Option String
  provider : Option String
  email : Option String
  iss : Option String
  aud : Option String
  exp : Option Nat
  sessionId : Option String
deriving DecidableEq

/-- The in-memory cache key built by `introspectKeystoneToken`:
`` `keystone_introspect_${token.substring(0, 20)}` ``. -/
def keystoneCacheKey (token : String) : String :=
  "keystone_introspect_" ++ (token.take 20)

/-- The Default User Principal built from an introspection result
(`buildDefaultUserPrincipal` in `keystoneIntrospection.js`). -/
structure UserPrincipal where
  sub : Option String
  role : RoleVal
  scope : Option String
  session_id : Option String
  externalId : Option String
  externalProvider : String
deriving DecidableEq

/-- `buildDefaultUserPrincipal` from `server/utils/auth/keystoneIntrospection.js`:
rejects absent or inactive results, then copies the claims, substituting the
string `"default"` only when the raw `role` claim is falsy. -/
def buildDefaultUserPrincipal (introspectionResult : Option Introspection) :
    Option UserPrincipal :=
  match introspectionResult with
  | none => none
  | some r =>
      if !r.active then none
      else some
        { sub := r.sub
          role := jsOrRole r.role (.str "default")
          scope := r.scope
          session_id := r.session_id
          externalId := r.sub
          externalProvider := "keystone" }

/-! ## Database-backed introspection cache (`server/utils/auth/cache.js`) -/

/-- A row of the `cache_data` table as written by `setCachedIntrospection`.
`expiresAt` is in milliseconds since the epoch. -/
structure CacheEntry where
  name : String
  data : Introspection
  belongsTo : String
  expiresAt : Nat
deriving DecidableEq

/-- The `cache_data` table restricted to introspection entries. -/
abbrev CacheDB := List CacheEntry

/-- The cache row name: `` `${CACHE_PREFIX}${token}` `` with `CACHE_PREFIX = "introspect:"`. -/
def cacheName (token : String) : String := "introspect:" ++ token

/-- `getCachedIntrospection` from `server/utils/auth/cache.js`: fetch the entry
whose `name` matches and whose `expiresAt` is strictly in the future. -/
def getCachedIntrospection (db : CacheDB) (now : Nat) (token : String) :
    Option Introspection :=
  match db.find? (fun e => e.name = cacheName token && now < e.expiresAt) with
  | some e => some e.data
  | none => none

/-- `setCachedIntrospection` from `server/utils/auth/cache.js`: delete any
existing entry of the same name, then create a fresh one expiring
`ttlSeconds` from now. -/
def setCachedIntrospection (db : CacheDB) (now : Nat) (token : String)
    (introspection : Introspection) (ttlSeconds : Nat) : CacheDB :=
  let cacheKey := cacheName token
  let expiresAt := now + ttlSeconds * 1000
  (db.filter (fun e => e.name ≠ cacheKey)) ++
    [{ name := cacheKey
       data := introspection
       belongsTo := "external_auth"
       expiresAt := expiresAt }]

/-! ## JWT model

Signature verification is modelled by an ambient `JwtWorld` recording, for each
raw token string, its structural decode and the key (if any) under which its
signature verifies.  `jsonwebtoken`'s `JWT.verify` is the function `jwtVerify`
over that world; `JWT.decode` is `JwtWorld.decode`. -/

/-- A decoded JWT payload, restricted to the claims this layer reads. -/
structure JwtPayload where
  sub : Option String
  id : Option JsId
  username : Option String
  role : Option RoleVal
  exp : Option Nat
  iss : Option String
  aud : Option String
  provider : Option String
  email : Option String
  scope : Option String
  sid : Option String
  sessionId : Option String
deriving DecidableEq

/-- Ambient facts about raw token strings: structural decode, the key that
validly signs the token (none when the signature verifies under no key), and
the SHA-256 fingerprint function used by `hashToken`. -/
structure JwtWorld where
  decode : String → Option JwtPayload
  signedWith : String → Option String
  sha256 : String → String

/-- `hashToken` from `server/utils/auth/cache.js`: SHA-256 hex digest of the
raw token. -/
def hashToken (w : JwtWorld) (token : String) : String := w.sha256 token

/-- `JWT.verify(token, key, { issuer?, audience? })` at time `now`
(milliseconds): requires a structural decode, a signature valid under `key`,
an unexpired `exp` when present, and matching `iss`/`aud` when the
corresponding option is set. -/
def jwtVerify (w : JwtWorld) (now : Nat) (token : String) (key : String)
    (issuer : Option String) (audience : Option String) : Option JwtPayload :=
  match w.decode token with
  | none => none
  | some payload =>
      if w.signedWith token == some key
          && (match payload.exp with
              | some e => decide (now < e * 1000)
              | none => true)
          && (match issuer with
              | some iss => payload.iss == some iss
              | none => true)
          && (match audience with
              | some aud => payload.aud == some aud
              | none => true)
      then some payload
      else none

/-! ## Admin token validator (`server/utils/auth/adminJWT.js`) -/

/-- The optional verification config `verifyAdminJWT` receives from the login
endpoint. -/
structure VerificationConfig where
  secret : Option String
  publicKey : Option String
  issuer : Option String
  audience : Option String
deriving DecidableEq

/-- `verifyAdminJWT(token, verificationConfig)` from
`server/utils/auth/adminJWT.js`.  With a config the token is verified through
`JWT.verify` using `publicKey || secret` and the role claim must equal
`"admin"`.  Without a config the token is only structurally decoded
(`JWT.decode`), its `exp` is checked manually (JS truthiness: a missing or
zero `exp` skips the check), the role claim must equal `"admin"`, and the
payload is returned with no signature verification at all. -/
def verifyAdminJWT (w : JwtWorld) (now : Nat) (token : Option String)
    (verificationConfig : Option VerificationConfig) : Option JwtPayload :=
  match token with
  | none => none
  | some tok =>
      if tok = "" then none
      else
        match verificationConfig with
        | some cfg =>
            match jsOrStr cfg.publicKey cfg.secret with
            | none => none
            | some key =>
                match jwtVerify w now tok key (strOptNorm cfg.issuer)
                    (strOptNorm cfg.audience) with
                | none => none
                | some decoded =>
                    if decoded.role == some (RoleVal.str "admin") then some decoded
                    else none
        | none =>
            match w.decode tok with
            | none => none
            | some payload =>
                if (match payload.exp with
                    | some e => e ≠ 0 && decide (e * 1000 < now)
                    | none => false) then none
                else if payload.role == some (RoleVal.str "admin") then some payload
                else none

/-! ## Local user store and external user provisioning
(`server/utils/auth/auditAuth.js`, `syncExternalUser` / `findByExternalId`) -/

/-- A row of the `users` table restricted to the fields the auth layer reads. -/
structure LocalUser where
  id : Nat
  username : String
  role : String
  suspended : Bool
  externalId : Option String
  externalProvider : Option String
deriving DecidableEq

/-- The `users` table. -/
abbrev UserDB := List LocalUser

/-- Modelled from the spec: `User.findByExternalId` (the `User` model itself is
not under `src/`): look an external identity up by its unique composite key
`(externalId, externalProvider)`. -/
def findByExternalId (db : UserDB) (externalId : String)
    (provider : String := "keystone-core-api") : Option LocalUser :=
  db.find? (fun u =>
    u.externalId = some externalId && u.externalProvider = some provider)

/-- The characters kept by the email sanitizer in `syncExternalUser`
(`replace(/[^a-z0-9_\-.]/g, "")`). -/
def usernameCharOk (c : Char) : Bool :=
  c.isLower || c.isDigit || c = '_' || c = '-' || c = '.'

/-- Modelled from the spec: `User.usernameRegex` (the `User` model is not under
`src/`): a valid username is a non-empty string over the same character set the
email sanitizer keeps, within the 100-character bound `syncExternalUser`
truncates to. -/
def usernameRegexTest (s : String) : Bool :=
  s ≠ "" && s.length ≤ 100 && s.data.all usernameCharOk

/-- Modelled from the spec: `User.validations.username` (the `User` model is
not under `src/`): normalization of an already-sanitized username, modelled as
the identity. -/
def validationsUsername (s : String) : String := s

/-- Strip a string to the sanitizer character set. -/
def sanitizeUsername (s : String) : String :=
  String.mk (s.data.filter usernameCharOk)

/-- The username derived in `syncExternalUser`:
`email.split("@")[0].toLowerCase().replace(/[^a-z0-9_\-.]/g, "")` when the
email is truthy, else `` `user_${externalId}` ``. -/
def deriveUsername (email : Option String) (externalId : String) : String :=
  match strOptNorm email with
  | some e =>
      sanitizeUsername
        (jsToLower (String.mk (e.data.takeWhile (fun c => c ≠ '@'))))
  | none => "user_" ++ externalId

/-- The external identity handed to the provisioner by
`validateExternalToken` (its `id` is the already-stringified `sub` claim). -/
structure ExternalUser where
  id : String
  email : Option String
  role : Option RoleVal
  provider : Option String
  scope : Option String
  sid : Option String
deriving DecidableEq

/-- Fresh id assigned by `prisma.users.create`. -/
def nextId (db : UserDB) : Nat := (db.map (fun u => u.id)).foldr max 0 + 1

/-- `prisma.users.update` on one row. -/
def prismaUsersUpdate (db : UserDB) (uid : Nat) (f : LocalUser → LocalUser) :
    UserDB :=
  db.map (fun u => if u.id = uid then f u else u)

/-- Whether setting `(externalId, externalProvider)` on row `uid` would violate
the unique index `users_externalId_externalProvider_key`. -/
def linkConflict (db : UserDB) (uid : Nat) (externalId : String) : Bool :=
  db.any (fun u =>
    u.id ≠ uid && u.externalId = some externalId &&
      u.externalProvider = some "keystone-core-api")

/-- `syncExternalUser(externalUser, existingUser)` from
`server/utils/auth/auditAuth.js` (the version with the username fallback
lookup and the `P2002` recovery path).  Returns the synced user object the
caller receives together with the updated `users` table; `.error` models a
thrown exception. -/
def syncExternalUser (db : UserDB) (externalUser : ExternalUser)
    (existingUser0 : Option LocalUser) : Except String (LocalUser × UserDB) :=
  let externalId := externalUser.id
  let username := deriveUsername externalUser.email externalId
  -- If no existing user was found by externalId, check by username.
  let existingUser :=
    match existingUser0 with
    | some u => some u
    | none => db.find? (fun u => u.username = validationsUsername username)
  match existingUser with
  | some eu =>
      if strOptNorm eu.externalId = none then
        -- Link: prisma.users.update sets externalId/externalProvider and the
        -- mapped role.  Prisma validates the payload before executing, so a
        -- non-string role throws first; the unique index can also reject the
        -- update (both uncaught here).
        match roleString (mapExternalRoleToAnythingLLMRole externalUser.role) with
        | none => .error "Invalid value provided. Expected String, provided Function"
        | some roleStr =>
            if linkConflict db eu.id externalId then
              .error "Unique constraint failed on the fields: (`externalId`,`externalProvider`)"
            else
              let refreshed :=
                { eu with
                  externalId := some (externalId)
                  externalProvider := some "keystone-core-api"
                  role := roleStr }
              .ok (refreshed, prismaUsersUpdate db eu.id (fun _ => refreshed))
      else
        -- Role refresh only; the object returned to the caller spreads the
        -- pre-update record, overriding the external linkage fields.
        match roleString (mapExternalRoleToAnythingLLMRole externalUser.role) with
        | none => .error "Invalid value provided. Expected String, provided Function"
        | some roleStr =>
            .ok
              ({ eu with
                 externalId := some (externalId)
                 externalProvider := some "keystone-core-api" },
               prismaUsersUpdate db eu.id (fun u => { u with role := roleStr }))
  | none =>
      -- Create path (inside try/catch in the source).
      match
        (if usernameRegexTest username then some username
         else
           if usernameRegexTest (("user_" ++ externalId).take 100) then
             some (("user_" ++ externalId).take 100)
           else none) with
      | none => .error "Failed to create user: Unable to generate valid username from external user data"
      | some finalUsername =>
          -- prisma.users.create validates its payload client-side before the
          -- query runs, so a non-string role throws ahead of any unique
          -- constraint; the catch sees no P2002 and rethrows.
          match roleString (mapExternalRoleToAnythingLLMRole externalUser.role) with
          | none => .error "Failed to create user: Invalid value provided. Expected String, provided Function"
          | some roleStr =>
          if db.any (fun u => u.username = validationsUsername finalUsername) then
            -- P2002 on create: first retry by external id, then link by username.
            match findByExternalId db externalId with
            | some u => .ok (u, db)
            | none =>
                match db.find? (fun u => u.username = validationsUsername finalUsername) with
                | some u =>
                    if linkConflict db u.id externalId then
                      .error "Failed to create user: Unique constraint failed"
                    else
                      let updated :=
                        { u with
                          externalId := some externalId
                          externalProvider := some "keystone-core-api"
                          role := roleStr }
                      .ok (updated, prismaUsersUpdate db u.id (fun _ => updated))
                | none => .error "Failed to create user: Unique constraint failed"
          else
            let created :=
              { id := nextId db
                username := validationsUsername finalUsername
                role := roleStr
                suspended := false
                externalId := none
                externalProvider := none : LocalUser }
            let db1 := db ++ [created]
            -- prisma.users.update sets the external linkage on the new row;
            -- the unique index can reject it, and the catch then resolves by
            -- external id.
            if db1.any (fun u =>
                u.id ≠ created.id && u.externalId = some externalId &&
                  u.externalProvider = some "keystone-core-api") then
              match findByExternalId db1 externalId with
              | some u => .ok (u, db1)
              | none => .error "Failed to create user: Unique constraint failed"
            else
              let linked :=
                { created with
                  externalId := some externalId
                  externalProvider := some "keystone-core-api" }
              .ok (linked, prismaUsersUpdate db1 created.id (fun _ => linked))

/-- One authentication of an external identity as `validateExternalToken`
performs it: look the identity up by external id, then sync. -/
def authOnce (db : UserDB) (externalUser : ExternalUser) :
    Except String (LocalUser × UserDB) :=
  syncExternalUser db externalUser (findByExternalId db externalUser.id)

/-- `externalUser` with a given role claim, for repeated authentications of
one identity. -/
def extWithRole (externalId : String) (email : Option String)
    (r : Option RoleVal) : ExternalUser :=
  { id := externalId, email := email, role := r, provider := none,
    scope := none, sid := none }

/-- Authenticate the same external identity once per element of `roles`,
threading the user table through. -/
def authSeq (db : UserDB) (externalId : String) (email : Option String) :
    List (Option RoleVal) → Except String UserDB
  | [] => .ok db
  | r :: rs =>
      match authOnce db (extWithRole externalId email r) with
      | .error e => .error e
      | .ok (_, db1) => authSeq db1 externalId email rs

/-! ## Keystone introspection client with in-memory cache
(`server/utils/auth/keystoneIntrospection.js`) -/

/-- An entry of the module-level in-memory `introspectionCache` map:
key, `data` and `expiresAt` (milliseconds). -/
abbrev KCache := List (String × Introspection × Nat)

/-- `introspectionCache.get(key)`. -/
def kcacheGet (c : KCache) (key : String) : Option (Introspection × Nat) :=
  match c.find? (fun e => e.1 = key) with
  | some e => some e.2
  | none => none

/-- `introspectionCache.set(key, value)`. -/
def kcacheSet (c : KCache) (key : String) (v : Introspection × Nat) : KCache :=
  if c.any (fun e => e.1 = key) then
    c.map (fun e => if e.1 = key then (key, v) else e)
  else c ++ [(key, v)]

/-- The raw environment strings `introspectKeystoneToken` consults. -/
structure KeystoneEnv where
  EXTERNAL_AUTH_ENABLED : Option String
  EXTERNAL_AUTH_MODE : Option String
  EXTERNAL_AUTH_API_URL : Option String
  EXTERNAL_AUTH_ISSUER : Option String
  EXTERNAL_AUTH_AUDIENCE : Option String
  EXTERNAL_API_SERVICE_KEY : Option String
deriving DecidableEq

/-- `String(v || "").split("#")[0].trim().toLowerCase()`. -/
def envNorm (v : Option String) : String :=
  jsToLower (jsTrim (beforeHash (v.getD "")))

/-- The result of one `fetch` of the introspection endpoint: `ok` mirrors
`response.ok` and `body` the parsed JSON body.  A network error, timeout or
abort is modelled by the absence of a response (`none`). -/
structure FetchResp where
  ok : Bool
  body : Introspection
deriving DecidableEq

/-- `introspectKeystoneToken(token)` from
`server/utils/auth/keystoneIntrospection.js`, with the in-memory cache state
and the network outcome made explicit.  Returns the introspection result (or
`none` for every rejection) together with the cache state after the call. -/
def introspectKeystoneToken (env : KeystoneEnv) (kcache : KCache)
    (net : Option FetchResp) (now : Nat) (token : String) :
    Option Introspection × KCache :=
  if token = "" then (none, kcache)
  else
    match kcacheGet kcache (keystoneCacheKey token) with
    | some cached =>
        if now < cached.2 then (some cached.1, kcache)
        else
          introspectKeystoneTokenMiss env kcache net now (keystoneCacheKey token)
    | none => introspectKeystoneTokenMiss env kcache net now (keystoneCacheKey token)
where
  /-- The body of `introspectKeystoneToken` past the cache check. -/
  introspectKeystoneTokenMiss (env : KeystoneEnv) (kcache : KCache)
      (net : Option FetchResp) (now : Nat) (cacheKey : String) :
      Option Introspection × KCache :=
    if envNorm env.EXTERNAL_AUTH_ENABLED ≠ "true" then (none, kcache)
    else if envNorm env.EXTERNAL_AUTH_MODE ≠ "introspect" then (none, kcache)
    else if strOptNorm env.EXTERNAL_AUTH_API_URL = none then (none, kcache)
    else
      match net with
      | none => (none, kcache)
      | some response =>
          if !response.ok then (none, kcache)
          else if !response.body.active then (none, kcache)
          else if (match response.body.exp with
                   | some e => e ≠ 0 && decide (e * 1000 < now)
                   | none => false) then (none, kcache)
          else if (match strOptNorm env.EXTERNAL_AUTH_ISSUER with
                   | some rawIss =>
                       match response.body.iss with
                       | some iss => iss ≠ "" && iss ≠ jsTrim (beforeHash rawIss)
                       | none => false
                   | none => false) then (none, kcache)
          else if (match strOptNorm env.EXTERNAL_AUTH_AUDIENCE with
                   | some expectedAudience =>
                       match response.body.aud with
                       | some aud => aud ≠ "" && aud ≠ expectedAudience
                       | none => false
                   | none => false) then (none, kcache)
          else
            (some response.body,
             kcacheSet kcache cacheKey (response.body, now + 30000))

/-! ## External-token validation middleware
(`server/utils/middleware/validateExternalToken.js`) -/

/-- The statically built `ExternalAuthConfig` from `server/utils/auth/config.js`. -/
structure ExternalAuthConfig where
  enabled : Bool
  mode : String
  apiUrl : Option String
  issuer : Option String
  audience : Option String
  serviceKey : Option String
  cacheTTL : Nat
  jwtSecret : Option String
  verifySession : Bool
deriving DecidableEq

/-- `callKeystoneIntrospect`: a missing response (network error or timeout)
and a non-2xx response both throw. -/
def callKeystoneIntrospect (net : Option FetchResp) : Except String Introspection :=
  match net with
  | none => .error "fetch failed"
  | some response =>
      if !response.ok then .error "Introspection failed"
      else .ok response.body

/-- `validateViaIntrospection(token)` from
`server/utils/middleware/validateExternalToken.js`.  The database-backed cache
is read twice: `c1` is the table at the initial lookup and `c2` its state at
the later await point (the write on success, or the stale re-read inside the
catch); a run with no concurrent writer has `c2 = c1`.  Returns the
introspection result together with the cache table after the call. -/
def validateViaIntrospection (cfg : ExternalAuthConfig) (w : JwtWorld)
    (c1 c2 : CacheDB) (net : Option FetchResp) (now : Nat) (token : String) :
    Except String (Introspection × CacheDB) :=
  match getCachedIntrospection c1 now (hashToken w token) with
  | some introspection => .ok (introspection, c2)
  | none =>
      match callKeystoneIntrospect net with
      | .ok introspection =>
          if introspection.active then
            .ok (introspection,
                 setCachedIntrospection c2 now (hashToken w token) introspection
                   cfg.cacheTTL)
          else .ok (introspection, c2)
      | .error e =>
          match getCachedIntrospection c2 now (hashToken w token) with
          | some cachedResult =>
              if cachedResult.active then .ok (cachedResult, c2) else .error e
          | none => .error e

/-- `n.toString()` for a JS id. -/
def jsIdToStr : JsId → String
  | .num n => toString n
  | .str s => s

/-- JS `sub || id` where `sub` is an optional string and `id` an optional JS
id, stringified for use as an external id (`String(x)` turns `undefined` into
the string `"undefined"`). -/
def jsSubOrIdStr (sub : Option String) (id : Option JsId) : String :=
  if strTruthy sub then sub.getD "undefined"
  else if idTruthy id then (id.map jsIdToStr).getD "undefined"
  else
    match id with
    | some i => jsIdToStr i
    | none =>
        match sub with
        | some s => s
        | none => "undefined"

/-- `validateViaSharedSecret(token)` from `validateExternalToken.js` (backup
mode): verify the token locally against the configured shared secret,
optionally verify the session remotely (`sessionValid` is the outcome of that
check), and convert the payload to an introspection-like record. -/
def validateViaSharedSecret (cfg : ExternalAuthConfig) (w : JwtWorld)
    (sessionValid : Bool) (now : Nat) (token : String) :
    Except String Introspection :=
  match cfg.jwtSecret with
  | none => .error "Invalid token signature"
  | some secret =>
      match jwtVerify w now token secret none none with
      | none => .error "Invalid token signature"
      | some decoded =>
          if !(strTruthy decoded.sub || idTruthy decoded.id) then
            .error "Invalid token structure"
          else if cfg.verifySession && !sessionValid then
            .error "Session revoked"
          else
            .ok
              { active := true
                sub := some (jsSubOrIdStr decoded.sub decoded.id)
                id := some (jsSubOrIdStr decoded.sub decoded.id)
                role := decoded.role
                provider := decoded.provider
                email := decoded.email
                scope := some (decoded.scope.getD "")
                session_id := none
                sid := jsOrStr decoded.sid decoded.sessionId
                iss := jsOrStr decoded.iss cfg.issuer
                aud := jsOrStr decoded.aud cfg.audience
                exp := decoded.exp
                sessionId := none }

/-- The principal attached to `response.locals` by the unified middleware:
either `{ type: "admin", apiKey }` or `{ type: "default", ...userPrincipal }`. -/
structure ApiKeyRec where
  secret : String
  createdBy : Option Nat
deriving DecidableEq

inductive Principal where
  | admin (apiKey : ApiKeyRec)
  | defaultUser (p : UserPrincipal)
deriving DecidableEq

/-- The `type` field of the principal object. -/
def Principal.type : Principal → String
  | .admin _ => "admin"
  | .defaultUser _ => "default"

/-- The request-locals values a middleware attaches before calling `next()`. -/
structure Locals where
  multiUserMode : Bool
  user : Option LocalUser
  externalUser : Option ExternalUser
  principal : Option Principal
  scope : List String
deriving DecidableEq

/-- A middleware outcome: call `next()` with the given locals, or respond with
an HTTP status and error message. -/
inductive MwResult where
  | next (locals : Locals)
  | respond (status : Nat) (error : String)
deriving DecidableEq

/-- Extract the bearer token the way `validateExternalToken` does:
`auth.startsWith("Bearer ") ? auth.slice(7).trim() : null`, then reject a
falsy token. -/
def bearerSlice (authHeader : Option String) : Option String :=
  let auth := authHeader.getD ""
  if jsStartsWith auth "Bearer " then
    let t := jsTrim (auth.drop 7)
    if t = "" then none else some t
  else none

/-- The external-user object `validateExternalToken` extracts from a verified
introspection result (`sub` with legacy `id` fallback, raw role, `email ?? null`,
`scope ?? ""`, `sid || sessionId`). -/
def externalUserOf (introspection : Introspection) : ExternalUser :=
  { id := jsSubOrIdStr introspection.sub (introspection.id.map JsId.str)
    role := introspection.role
    provider := introspection.provider
    email := introspection.email
    scope := some (introspection.scope.getD "")
    sid := jsOrStr introspection.sid introspection.sessionId }

/-- `validateExternalToken(req, res, next)` from
`server/utils/middleware/validateExternalToken.js`.  Inputs: the static
config, the ambient JWT facts, the user table, the two cache-table read states
(see `validateViaIntrospection`), the network outcome, the shared-secret
session-check outcome, the clock (milliseconds) and the `Authorization`
header.  Returns the middleware outcome together with the user table and
cache table after the call. -/
def validateExternalToken (cfg : ExternalAuthConfig) (w : JwtWorld)
    (db : UserDB) (c1 c2 : CacheDB) (net : Option FetchResp)
    (sessionValid : Bool) (now : Nat) (authHeader : Option String) :
    MwResult × UserDB × CacheDB :=
  if !cfg.enabled then
    (.next { multiUserMode := false, user := none, externalUser := none,
             principal := none, scope := [] }, db, c2)
  else
    match bearerSlice authHeader with
    | none => (.respond 401 "Invalid or expired token", db, c2)
    | some token =>
        match w.decode token with
        | none => (.respond 401 "Invalid or expired token", db, c2)
        | some decodedPayload =>
            if !((decodedPayload.sub.isSome ||
                  (match decodedPayload.id with
                   | some (.str _) => true
                   | _ => false)) && decodedPayload.exp.isSome) then
              (.respond 401 "Invalid or expired token", db, c2)
            else
              let nowS := now / 1000
              let exp := decodedPayload.exp.getD 0
              if exp + 60 < nowS then
                (.respond 401 "Invalid or expired token", db, c2)
              else
                let introspectionE :=
                  if cfg.mode = "introspect" then
                    validateViaIntrospection cfg w c1 c2 net now token
                  else if cfg.mode = "shared-secret" then
                    match validateViaSharedSecret cfg w sessionValid now token with
                    | .ok i => .ok (i, c2)
                    | .error e => .error e
                  else .error "Unknown auth mode"
                match introspectionE with
                | .error _ => (.respond 401 "Invalid or expired token", db, c2)
                | .ok (introspection, c3) =>
                    if !introspection.active then
                      (.respond 401 "Invalid or expired token", db, c3)
                    else if !(introspection.iss == cfg.issuer &&
                              introspection.aud == cfg.audience) then
                      (.respond 401 "Invalid or expired token", db, c3)
                    else
                      let externalUser := externalUserOf introspection
                      let existingUser := findByExternalId db externalUser.id
                      match syncExternalUser db externalUser existingUser with
                      | .error _ => (.respond 401 "Invalid or expired token", db, c3)
                      | .ok (localUser, db1) =>
                          if localUser.suspended then
                            (.respond 401 "User is suspended from system", db1, c3)
                          else
                            (.next
                              { multiUserMode := false
                                user := some localUser
                                externalUser := some externalUser
                                principal := none
                                scope :=
                                  (jsSplit (externalUser.scope.getD "") ' ').filter
                                    (fun s => s ≠ "") },
                             db1, c3)

/-! ## Unified middleware (`src/unnamed/part_004`: `unifiedAuth`, `adminOnlyAuth`) -/

/-- `ApiKey.get({ secret: token })` over the API key store. -/
def apiKeyGet (apiKeys : List ApiKeyRec) (token : String) : Option ApiKeyRec :=
  apiKeys.find? (fun k => k.secret = token)

/-- Extract the bearer token the way `unifiedAuth`/`adminOnlyAuth` do:
require a `Bearer ` header, take `auth.split(" ")[1]`, and reject a falsy
token. -/
def bearerSplit (authHeader : Option String) : Option String :=
  match authHeader with
  | none => none
  | some auth =>
      if !jsStartsWith auth "Bearer " then none
      else
        match (jsSplit auth ' ').get? 1 with
        | some t => if t = "" then none else some t
        | none => none

/-- `adminOnlyAuth(request, response, next)` from `src/unnamed/part_004`:
only API keys are accepted; there is no JWT fallback. -/
def adminOnlyAuth (apiKeys : List ApiKeyRec) (multiUserMode : Bool)
    (authHeader : Option String) : MwResult :=
  match bearerSplit authHeader with
  | none => .respond 401 "No authorization token found."
  | some token =>
      match apiKeyGet apiKeys token with
      | none => .respond 401 "Invalid API key. Admin endpoints require a valid API key."
      | some apiKey =>
          .next { multiUserMode := multiUserMode, user := none,
                  externalUser := none, principal := some (.admin apiKey),
                  scope := [] }

/-- `User.get({ id })`. -/
def userGetById (db : UserDB) (uid : Nat) : Option LocalUser :=
  db.find? (fun u => u.id = uid)

/-- Modelled from the spec: `User.findOrCreateExternalUser` (the `User` model
is not under `src/`): reuse the record keyed by `(externalId,
externalProvider)` when it exists, otherwise create a local user whose stored
role is the external role claim mapped through the fixed role table; a mapped
value the store cannot hold as a string makes creation fail (no user). -/
def findOrCreateExternalUser (db : UserDB) (externalId : String)
    (provider : String) (username : String) (role : Option RoleVal) :
    Option LocalUser × UserDB :=
  match findByExternalId db externalId provider with
  | some u => (some u, db)
  | none =>
      match roleString (mapExternalRoleToAnythingLLMRole role) with
      | none => (none, db)
      | some roleStr =>
          let created : LocalUser :=
            { id := nextId db
              username := username
              role := roleStr
              suspended := false
              externalId := some externalId
              externalProvider := some provider }
          (some created, db ++ [created])

/-- `unifiedAuth(request, response, next)` from `src/unnamed/part_004` (the
API-key-first version): API key lookup first, then keystone introspection for
default users.  Returns the outcome with the user table and the in-memory
introspection cache after the call. -/
def unifiedAuth (apiKeys : List ApiKeyRec) (env : KeystoneEnv) (db : UserDB)
    (kcache : KCache) (net : Option FetchResp) (now : Nat)
    (multiUserMode : Bool) (authHeader : Option String) :
    MwResult × UserDB × KCache :=
  match bearerSplit authHeader with
  | none => (.respond 401 "No authorization token found.", db, kcache)
  | some token =>
      match apiKeyGet apiKeys token with
      | some apiKey =>
          (.next { multiUserMode := multiUserMode, user := none,
                   externalUser := none, principal := some (.admin apiKey),
                   scope := [] }, db, kcache)
      | none =>
          if envNorm env.EXTERNAL_AUTH_ENABLED ≠ "true" then
            (.respond 401 "External authentication is not enabled. Check EXTERNAL_AUTH_ENABLED in .env file.",
             db, kcache)
          else
            match introspectKeystoneToken env kcache net now token with
            | (introspectionResult?, kcache1) =>
                match introspectionResult? with
                | none => (.respond 401 "Invalid or expired token.", db, kcache1)
                | some introspectionResult =>
                    if !introspectionResult.active then
                      (.respond 401 "Invalid or expired token.", db, kcache1)
                    else
                      match buildDefaultUserPrincipal (some introspectionResult) with
                      | none => (.respond 401 "Invalid token format.", db, kcache1)
                      | some userPrincipal =>
                          unifiedAuthProvision db kcache1 multiUserMode userPrincipal
where
  /-- The tail of `unifiedAuth`: find-or-create the local user when the
  principal carries an external linkage, check suspension, attach the
  principal. -/
  unifiedAuthProvision (db : UserDB) (kcache1 : KCache) (multiUserMode : Bool)
      (userPrincipal : UserPrincipal) : MwResult × UserDB × KCache :=
    if strTruthy userPrincipal.externalId && userPrincipal.externalProvider ≠ "" then
      let externalId := userPrincipal.externalId.getD "undefined"
      match findByExternalId db externalId userPrincipal.externalProvider with
      | some user =>
          if user.suspended then
            (.respond 401 "User is suspended from system", db, kcache1)
          else
            (.next { multiUserMode := multiUserMode, user := some user,
                     externalUser := none,
                     principal := some (.defaultUser userPrincipal),
                     scope := [] }, db, kcache1)
      | none =>
          match findOrCreateExternalUser db externalId
              userPrincipal.externalProvider
              ((userPrincipal.sub).getD "undefined") (some userPrincipal.role) with
          | (none, db1) => (.respond 401 "User not found.", db1, kcache1)
          | (some user, db1) =>
              if user.suspended then
                (.respond 401 "User is suspended from system", db1, kcache1)
              else
                (.next { multiUserMode := multiUserMode, user := some user,
                         externalUser := none,
                         principal := some (.defaultUser userPrincipal),
                         scope := [] }, db1, kcache1)
    else
      (.next { multiUserMode := multiUserMode, user := none,
               externalUser := none,
               principal := some (.defaultUser userPrincipal),
               scope := [] }, db, kcache1)

/-! ## Shared-route request validation
(`server/utils/middleware/validatedRequest.js`) -/

/-- The internal environment `validatedRequest` consults. -/
structure InternalEnv where
  JWT_SECRET : Option String
  AUTH_TOKEN : Option String
  NODE_ENV : Option String
  /-- Modelled from the spec: the single-user encrypted-password comparison
  (`EncryptionManager`/`bcrypt` are not under `src/`), abstracted to its
  outcome. -/
  singleUserPassOk : Bool
deriving DecidableEq

/-- Modelled from the spec: `decodeJWT` from `server/utils/http` (not under
`src/`): verify the token against the statically configured internal
`JWT_SECRET`, returning the payload on success and nothing on any failure. -/
def decodeJWT (w : JwtWorld) (env : InternalEnv) (now : Nat) (token : String) :
    Option JwtPayload :=
  match env.JWT_SECRET with
  | none => none
  | some secret => jwtVerify w now token secret none none

/-- Extract the token the way `validatedRequest` does:
`auth ? auth.split(" ")[1] : null`, rejecting a falsy result. -/
def splitToken (authHeader : Option String) : Option String :=
  match authHeader with
  | some auth =>
      match (jsSplit auth ' ').get? 1 with
      | some t => if t = "" then none else some t
      | none => none
  | none => none

/-- `validateMultiUserRequest` from `validatedRequest.js`. -/
def validateMultiUserRequest (w : JwtWorld) (env : InternalEnv) (db : UserDB)
    (now : Nat) (authHeader : Option String) : MwResult :=
  match splitToken authHeader with
  | none => .respond 401 "No auth token found."
  | some token =>
      match decodeJWT w env now token with
      | none => .respond 401 "Invalid auth token."
      | some valid =>
          if !idTruthy valid.id then .respond 401 "Invalid auth token."
          else
            match (match valid.id with
                   | some (.num n) => userGetById db n
                   | _ => none) with
            | none => .respond 401 "Invalid auth for user."
            | some user =>
                if user.suspended then .respond 401 "User is suspended from system"
                else
                  .next { multiUserMode := true, user := some user,
                          externalUser := none, principal := none, scope := [] }

/-- `validatedRequest(request, response, next)` from
`server/utils/middleware/validatedRequest.js`.  When external auth is enabled
in multi-user mode: API keys are rejected, a verified internal JWT for an
unsuspended admin is accepted, and everything else is handed to the external
user token validation (`validateExternalUserToken` is not under `src/`;
it is modelled by the in-src `validateExternalToken`, which implements the
same external-token validation contract). -/
def validatedRequest (cfg : ExternalAuthConfig) (w : JwtWorld)
    (env : InternalEnv) (apiKeys : List ApiKeyRec) (db : UserDB)
    (c1 c2 : CacheDB) (net : Option FetchResp) (sessionValid : Bool)
    (now : Nat) (multiUserMode : Bool) (authHeader : Option String) :
    MwResult × UserDB × CacheDB :=
  if cfg.enabled && multiUserMode then
    match splitToken authHeader with
    | none =>
        validateExternalToken cfg w db c1 c2 net sessionValid now authHeader
    | some token =>
        match apiKeyGet apiKeys token with
        | some _ =>
            (.respond 401 "API keys cannot be used on this endpoint. Use JWT authentication.",
             db, c2)
        | none =>
            match decodeJWT w env now token with
            | some decoded =>
                if idTruthy decoded.id && strTruthy decoded.username &&
                    roleTruthy decoded.role then
                  match (match decoded.id with
                         | some (.num n) => userGetById db n
                         | _ => none) with
                  | some user =>
                      if user.role = "admin" && !user.suspended then
                        (.next { multiUserMode := true, user := some user,
                                 externalUser := none, principal := none,
                                 scope := [] }, db, c2)
                      else
                        validateExternalToken cfg w db c1 c2 net sessionValid
                          now authHeader
                  | none =>
                      validateExternalToken cfg w db c1 c2 net sessionValid now
                        authHeader
                else
                  validateExternalToken cfg w db c1 c2 net sessionValid now
                    authHeader
            | none =>
                validateExternalToken cfg w db c1 c2 net sessionValid now
                  authHeader
  else if multiUserMode then
    (validateMultiUserRequest w env db now authHeader, db, c2)
  else
    -- Single-user mode.
    if envNorm env.NODE_ENV = "development" || strOptNorm env.AUTH_TOKEN = none ||
        strOptNorm env.JWT_SECRET = none then
      (.next { multiUserMode := false, user := none, externalUser := none,
               principal := none, scope := [] }, db, c2)
    else
      match splitToken authHeader with
      | none => (.respond 401 "No auth token found.", db, c2)
      | some _ =>
          if !env.singleUserPassOk then
            (.respond 401 "Invalid auth credentials.", db, c2)
          else
            (.next { multiUserMode := false, user := none, externalUser := none,
                     principal := none, scope := [] }, db, c2)

/-! ## Workspace access scoping (`server/utils/workspaces/access.js`) -/

/-- The `workspace_users.some` predicate a scoped query carries. -/
structure WUClause where
  user_id : Option Nat
deriving DecidableEq

/-- The `where` object of a workspace query, restricted to the filters this
layer reads and writes. -/
structure WhereClause where
  idEq : Option Nat
  workspace_users : Option WUClause
deriving DecidableEq

/-- A workspace Prisma query. -/
structure PrismaQuery where
  whereClause : Option WhereClause
  selectIdOnly : Bool
  includeDocuments : Bool
deriving DecidableEq

/-- `isAdminRequest(response)` from `server/utils/workspaces/access.js`:
`response?.locals?.principal?.type === "admin"`. -/
def isAdminRequest (locals : Locals) : Bool :=
  match locals.principal with
  | some p => Principal.type p = "admin"
  | none => false

/-- `scopeWorkspaceQuery(response, prismaQuery)` from
`server/utils/workspaces/access.js`: admins pass through unmodified;
non-admins without a user yield `null`; otherwise the
`workspace_users.some.user_id` membership predicate is injected. -/
def scopeWorkspaceQuery (locals : Locals) (prismaQuery : PrismaQuery) :
    Option PrismaQuery :=
  if isAdminRequest locals then some prismaQuery
  else
    match locals.user with
    | none => none
    | some user =>
        let whereC := prismaQuery.whereClause.getD
          { idEq := none, workspace_users := none }
        some
          { prismaQuery with
            whereClause := some
              { whereC with workspace_users := some { user_id := some user.id } } }

/-- A row of the `workspaces` table (only the id matters to this layer). -/
structure WorkspaceRec where
  id : Nat
deriving DecidableEq

/-- The external workspace store: workspaces plus the
`(workspace_id, user_id)` membership join table. -/
structure WorkspaceStore where
  workspaces : List WorkspaceRec
  workspace_users : List (Nat × Nat)
deriving DecidableEq

/-- Modelled from the spec: the Prisma query engine over the workspace store
(an external collaborator): a row matches `where` iff the optional id filter
matches and, when a `workspace_users.some` predicate is present, some
membership row relates the workspace to the required user. -/
def matchesWhere (store : WorkspaceStore) (wc : Option WhereClause)
    (ws : WorkspaceRec) : Bool :=
  match wc with
  | none => true
  | some c =>
      (match c.idEq with
       | some i => ws.id = i
       | none => true) &&
      (match c.workspace_users with
       | some wu =>
           (match wu.user_id with
            | some uid =>
                store.workspace_users.any (fun m => m.1 = ws.id && m.2 = uid)
            | none => true)
       | none => true)

/-- `Workspace._findMany` under the modelled Prisma semantics. -/
def workspaceFindMany (store : WorkspaceStore) (q : PrismaQuery) :
    List WorkspaceRec :=
  store.workspaces.filter (matchesWhere store q.whereClause)

/-- `Workspace._findFirst` under the modelled Prisma semantics. -/
def workspaceFindFirst (store : WorkspaceStore) (q : PrismaQuery) :
    Option WorkspaceRec :=
  (workspaceFindMany store q).head?

/-- `getWorkspaceForRequest(response, clause, options)` from `access.js`. -/
def getWorkspaceForRequest (store : WorkspaceStore) (locals : Locals)
    (clause : Option WhereClause) : Option WorkspaceRec :=
  match scopeWorkspaceQuery locals
      { whereClause := clause, selectIdOnly := false, includeDocuments := true } with
  | none => none
  | some scopedQuery => workspaceFindFirst store scopedQuery

/-- `getAccessibleWorkspaceIds(response)` from `access.js`. -/
def getAccessibleWorkspaceIds (store : WorkspaceStore) (locals : Locals) :
    List Nat :=
  match scopeWorkspaceQuery locals
      { whereClause := some { idEq := none, workspace_users := none },
        selectIdOnly := true, includeDocuments := false } with
  | none => []
  | some scopedQuery => (workspaceFindMany store scopedQuery).map (fun wks => wks.id)

/-! ## Concrete fixtures used by witnesses and counterexamples -/

/-- A structurally valid admin JWT payload with a far-future expiry. -/
def forgedAdminPayload : JwtPayload :=
  { sub := some "admin-1", id := none, username := none,
    role := some (.str "admin"), exp := some 2000000000,
    iss := none, aud := none, provider := none, email := none,
    scope := none, sid := none, sessionId := none }

/-- The payload of a correctly signed internal admin JWT. -/
def adminJwtPayload : JwtPayload :=
  { sub := some "7", id := some (.num 7), username := some "aliceadmin",
    role := some (.str "admin"), exp := some 2000000000,
    iss := none, aud := none, provider := none, email := none,
    scope := none, sid := none, sessionId := none }

/-- The payload of an externally issued user JWT. -/
def extJwtPayload : JwtPayload :=
  { sub := some "u-42", id := none, username := none,
    role := some (.str "user"), exp := some 2000000000,
    iss := none, aud := none, provider := none, email := none,
    scope := none, sid := none, sessionId := none }

/-- A concrete ambient world: `admin.signed.token` is validly signed with the
internal secret; `forged.admin.token` and `ext.user.token` decode structurally
but verify under no key; everything else is not a JWT.  SHA-256 is abstracted
to an injective tagging function. -/
def testWorld : JwtWorld :=
  { decode := fun s =>
      if s = "forged.admin.token" then some forgedAdminPayload
      else if s = "admin.signed.token" then some adminJwtPayload
      else if s = "ext.user.token" then some extJwtPayload
      else none
    signedWith := fun s =>
      if s = "admin.signed.token" then some "internal-secret" else none
    sha256 := fun s => "sha256:" ++ s }

/-- A fixed clock (milliseconds). -/
def tNow : Nat := 1700000000000

/-- An active introspection result for external subject `u-42` with external
role `"user"`. -/
def introUser : Introspection :=
  { active := true, sub := some "u-42", id := none,
    role := some (.str "user"), scope := some "read write",
    session_id := none, sid := none, provider := some "keystone",
    email := none, iss := some "https://idp.example",
    aud := some "anything-llm", exp := some 2000000000, sessionId := none }

/-- The same result with only ten seconds of remaining token lifetime at
`tNow`. -/
def introShort : Introspection := { introUser with exp := some 1700000010 }

/-- The static external-auth configuration used by the fixtures. -/
def cfgC : ExternalAuthConfig :=
  { enabled := true, mode := "introspect",
    apiUrl := some "https://keystone.example",
    issuer := some "https://idp.example", audience := some "anything-llm",
    serviceKey := some "svc-key", cacheTTL := 300, jwtSecret := none,
    verifySession := false }

/-- The keystone environment used by the fixtures. -/
def kenvC : KeystoneEnv :=
  { EXTERNAL_AUTH_ENABLED := some "true"
    EXTERNAL_AUTH_MODE := some "introspect"
    EXTERNAL_AUTH_API_URL := some "https://keystone.example"
    EXTERNAL_AUTH_ISSUER := none
    EXTERNAL_AUTH_AUDIENCE := none
    EXTERNAL_API_SERVICE_KEY := some "svc-key" }

/-- The internal environment used by the fixtures. -/
def ienvC : InternalEnv :=
  { JWT_SECRET := some "internal-secret", AUTH_TOKEN := some "authtok",
    NODE_ENV := some "production", singleUserPassOk := true }

/-- The API key store used by the fixtures. -/
def apiKeysC : List ApiKeyRec := [{ secret := "sk-admin-key", createdBy := some 1 }]

/-- The local user the fixture run of `unifiedAuth` creates for `u-42`. -/
def c3CreatedUser : LocalUser :=
  { id := 1, username := "u-42", role := "default", suspended := false,
    externalId := some "u-42", externalProvider := some "keystone" }

/-- The principal the fixture run of `unifiedAuth` attaches for `u-42`. -/
def c3Principal : UserPrincipal :=
  { sub := some "u-42", role := .str "user", scope := some "read write",
    session_id := none, externalId := some "u-42",
    externalProvider := "keystone" }

/-! ## Claim theorems -/

/-- C1: the claim says every token accepted by the admin token validator had
its signature verified against a statically configured key.  The code refutes
this: called without a verification config — the production default, since the
config is discovered from the login endpoint per request — `verifyAdminJWT`
accepts a structurally decoded token whose signature verifies under no key at
all, as long as its `role` claim reads `admin` and its `exp` has not passed. -/
theorem verifyAdminJWT_accepts_unsigned_admin_token :
    verifyAdminJWT testWorld tNow (some "forged.admin.token") none =
      some forgedAdminPayload ∧
    testWorld.signedWith "forged.admin.token" = none ∧
    (∀ key, jwtVerify testWorld tNow "forged.admin.token" key none none = none) :=
  ⟨rfl, rfl, fun _ => rfl⟩

/-- C3 counterexample: after a successful introspection with external role
`"user"`, `unifiedAuth` attaches a principal whose `role` field is the raw
external string `"user"` — not the image `"default"` of the fixed mapping
table, and not an element of `{admin, default}` — even though the local user
record it creates does store the mapped role. -/
theorem unifiedAuth_principal_carries_raw_role :
    (unifiedAuth [] kenvC [] [] (some { ok := true, body := introUser }) tNow
        true (some "Bearer ext.user.token")).1 =
      MwResult.next
        { multiUserMode := true
          user := some c3CreatedUser
          externalUser := none
          principal := some (.defaultUser c3Principal)
          scope := [] } ∧
    c3Principal.role = RoleVal.str "user" ∧
    mapExternalRoleToAnythingLLMRole (some (RoleVal.str "user")) =
      .str "default" ∧
    c3CreatedUser.role = "default" ∧
    RoleVal.str "user" ≠ RoleVal.str "admin" ∧
    RoleVal.str "user" ≠ RoleVal.str "default" := by
  refine ⟨rfl, rfl, rfl, rfl, by decide, by decide⟩

/-- C3 (amended): the role mapping is closed into `{admin, default}` only off
the object's prototype chain — a role value whose effective role name is not
an `Object.prototype` member name maps to exactly one of `"admin"` and
`"default"` (`"admin"` exactly when the name is `"admin"`, everything else
falling through to `"default"`, as does an absent name), but a role name that
is an `Object.prototype` member name (`constructor`, `toString`, `__proto__`,
…) escapes the table: the lookup returns the truthy inherited member rather
than `"default"`.  (The principal produced by `unifiedAuth`, moreover,
carries the raw external role claim, defaulted only when falsy — see the
counterexample.) -/
theorem mapExternalRoleToAnythingLLMRole_closure (externalRole : Option RoleVal) :
    (∀ k, roleMapKey externalRole = some k →
      objectProtoKeys.contains k = false →
      (mapExternalRoleToAnythingLLMRole externalRole = .str "admin" ∨
       mapExternalRoleToAnythingLLMRole externalRole = .str "default")) ∧
    (roleMapKey externalRole = none →
      mapExternalRoleToAnythingLLMRole externalRole = .str "default") ∧
    (mapExternalRoleToAnythingLLMRole externalRole = .str "admin" ↔
      roleMapKey externalRole = some "admin") ∧
    (∀ k, roleMapKey externalRole = some k →
      objectProtoKeys.contains k = true →
      mapExternalRoleToAnythingLLMRole externalRole = .protoMember k) := by
  have hkey : ∀ k : String,
      (objectProtoKeys.contains k = false →
        ((roleMap k).getD (.str "default") = .str "admin" ∨
         (roleMap k).getD (.str "default") = .str "default")) ∧
      ((roleMap k).getD (.str "default") = .str "admin" ↔ k = "admin") ∧
      (objectProtoKeys.contains k = true →
        (roleMap k).getD (.str "default") = .protoMember k) := by
    intro k
    by_cases h1 : k = "admin"
    · subst h1
      exact ⟨fun _ => Or.inl rfl, by decide, fun hc => absurd hc (by decide)⟩
    · by_cases h2 : k = "user"
      · subst h2
        exact ⟨fun _ => Or.inr rfl, by decide, fun hc => absurd hc (by decide)⟩
      · by_cases hp : objectProtoKeys.contains k = true
        · have hmapk : roleMap k = some (.protoMember k) := by
            unfold roleMap
            rw [if_neg h1, if_neg h2, if_pos hp]
          refine ⟨fun hc => absurd (hc.symm.trans hp) (by decide), ?_,
            fun _ => by rw [hmapk]; rfl⟩
          rw [hmapk]
          simp [h1]
        · have hmapk : roleMap k = none := by
            unfold roleMap
            rw [if_neg h1, if_neg h2, if_neg (by simpa using hp)]
          refine ⟨fun _ => Or.inr (by rw [hmapk]; rfl), ?_,
            fun hc => absurd hc hp⟩
          rw [hmapk]
          simp [h1]
  cases hko : roleMapKey externalRole with
  | none =>
      have hmap : mapExternalRoleToAnythingLLMRole externalRole =
          .str "default" := by
        unfold mapExternalRoleToAnythingLLMRole
        rw [hko]
      refine ⟨fun k hk => absurd hk (by simp), fun _ => hmap, ?_,
        fun k hk => absurd hk (by simp)⟩
      rw [hmap]
      simp
  | some k =>
      have hmap : mapExternalRoleToAnythingLLMRole externalRole =
          (roleMap k).getD (.str "default") := by
        unfold mapExternalRoleToAnythingLLMRole
        rw [hko]
      obtain ⟨hk1, hk2, hk3⟩ := hkey k
      refine ⟨?_, ?_, ?_, ?_⟩
      · intro k2 hk2eq hc
        obtain rfl : k = k2 := Option.some.inj hk2eq
        rw [hmap]
        exact hk1 hc
      · intro h
        exact absurd h (by simp)
      · rw [hmap, hk2]
        simp
      · intro k2 hk2eq hc
        obtain rfl : k = k2 := Option.some.inj hk2eq
        rw [hmap]
        exact hk3 hc

/-- C3 witness: the unrecognized name `superuser` stays inside
`{admin, default}`, while the prototype-chain name `constructor` escapes to
the inherited member. -/
theorem mapExternalRoleToAnythingLLMRole_closure_witness :
    roleMapKey (some (RoleVal.str "superuser")) = some "superuser" ∧
    objectProtoKeys.contains "superuser" = false ∧
    (mapExternalRoleToAnythingLLMRole (some (RoleVal.str "superuser")) =
        .str "admin" ∨
     mapExternalRoleToAnythingLLMRole (some (RoleVal.str "superuser")) =
        .str "default") ∧
    objectProtoKeys.contains "constructor" = true ∧
    mapExternalRoleToAnythingLLMRole (some (RoleVal.str "constructor")) =
      .protoMember "constructor" :=
  ⟨rfl, by decide,
   (mapExternalRoleToAnythingLLMRole_closure (some (.str "superuser"))).1
     "superuser" rfl (by decide),
   by decide,
   (mapExternalRoleToAnythingLLMRole_closure
       (some (.str "constructor"))).2.2.2 "constructor" rfl (by decide)⟩

/-- C5 counterexample: the in-memory introspection cache keys entries by the
literal first 20 characters of the raw token.  Two distinct tokens sharing a
20-character prefix share one cache entry: after `tokA` is introspected and
cached, introspecting `tokB` returns `tokA`'s cached result with no network
response at all; and the cache key embeds a substring (a prefix) of the raw
token rather than a one-way hash. -/
theorem keystoneCacheKey_shares_entries :
    "eyJhbGciOiJIUzI1NiIsAAAACCC" ≠ "eyJhbGciOiJIUzI1NiIsBBBBDDD" ∧
    keystoneCacheKey "eyJhbGciOiJIUzI1NiIsAAAACCC" =
      keystoneCacheKey "eyJhbGciOiJIUzI1NiIsBBBBDDD" ∧
    (introspectKeystoneToken kenvC
        (introspectKeystoneToken kenvC [] (some { ok := true, body := introUser })
          tNow "eyJhbGciOiJIUzI1NiIsAAAACCC").2
        none tNow "eyJhbGciOiJIUzI1NiIsBBBBDDD").1 = some introUser ∧
    jsStartsWith "eyJhbGciOiJIUzI1NiIsAAAACCC"
        (String.take "eyJhbGciOiJIUzI1NiIsAAAACCC" 20) = true ∧
    (keystoneCacheKey "eyJhbGciOiJIUzI1NiIsAAAACCC").drop 20 =
      String.take "eyJhbGciOiJIUzI1NiIsAAAACCC" 20 := by
  refine ⟨by decide, by decide, by decide, by decide, by decide⟩

/-- C5 (amended): in the database-backed cache path the key is the SHA-256
fingerprint of the token, but the in-memory cache of
`introspectKeystoneToken` keys entries by the constant tag
`keystone_introspect_` followed by the first 20 characters of the raw token;
consequently two raw tokens share a cache key exactly when their first 20
characters agree — distinct tokens with a common 20-character prefix do share
an entry. -/
theorem keystoneCacheKey_collision_iff (t1 t2 : String) :
    keystoneCacheKey t1 = keystoneCacheKey t2 ↔
      String.take t1 20 = String.take t2 20 := by
  unfold keystoneCacheKey
  constructor
  · intro h
    have hd := congrArg String.data h
    simp only [String.data_append] at hd
    exact String.ext (List.append_cancel_left hd)
  · intro h
    rw [h]

/-- C7 counterexample: with a configured TTL of 300 seconds and a token whose
remaining lifetime at `tNow` is only 10 seconds, the cache entry written by
`validateViaIntrospection` expires at `tNow + 300000` milliseconds — later
than the token's own expiry `1700000010 * 1000`, and not `now` plus the
shorter of the TTL and the remaining lifetime. -/
theorem c7_cache_entry_outlives_token :
    validateViaIntrospection cfgC testWorld [] []
        (some { ok := true, body := introShort }) tNow "tok" =
      .ok (introShort,
        [{ name := cacheName (hashToken testWorld "tok"), data := introShort,
           belongsTo := "external_auth", expiresAt := 1700000300000 }]) ∧
    introShort.exp = some 1700000010 ∧
    1700000010 * 1000 < 1700000300000 ∧
    cfgC.cacheTTL = 300 ∧
    1700000300000 ≠ tNow + min cfgC.cacheTTL (1700000010 - tNow / 1000) * 1000 := by
  refine ⟨by decide, rfl, by decide, rfl, by decide⟩

/-- C7 (amended): every entry written by `setCachedIntrospection` expires
exactly `ttlSeconds` after `now`, independently of the token's remaining
lifetime (its `exp` claim does not enter the computation), and may therefore
be later than the token's own expiry. -/
theorem setCachedIntrospection_ttl_only (db : CacheDB) (now : Nat)
    (token : String) (introspection : Introspection) (ttlSeconds : Nat) :
    (setCachedIntrospection db now token introspection ttlSeconds).getLast? =
      some { name := cacheName token, data := introspection,
             belongsTo := "external_auth",
             expiresAt := now + ttlSeconds * 1000 } := by
  unfold setCachedIntrospection
  simp

/-! ### Cache-write membership helpers -/

/-- Every entry of a cache produced by `setCachedIntrospection` was already
present or is exactly the newly created entry. -/
theorem mem_setCachedIntrospection (db : CacheDB) (now : Nat) (token : String)
    (i : Introspection) (ttl : Nat) (e : CacheEntry)
    (he : e ∈ setCachedIntrospection db now token i ttl) :
    e ∈ db ∨
      e = { name := cacheName token, data := i, belongsTo := "external_auth",
            expiresAt := now + ttl * 1000 } := by
  unfold setCachedIntrospection at he
  simp only [List.mem_append, List.mem_filter, List.mem_singleton] at he
  rcases he with ⟨h1, _⟩ | h2
  · exact Or.inl h1
  · exact Or.inr h2

/-- Every entry of a map produced by `kcacheSet` was already present or is
exactly the inserted pair. -/
theorem mem_kcacheSet (c : KCache) (key : String) (v : Introspection × Nat)
    (e : String × Introspection × Nat) (he : e ∈ kcacheSet c key v) :
    e ∈ c ∨ e = (key, v) := by
  unfold kcacheSet at he
  split at he
  · simp only [List.mem_map] at he
    obtain ⟨x, hx, hxe⟩ := he
    by_cases h : x.1 = key
    · rw [if_pos h] at hxe
      exact Or.inr hxe.symm
    · rw [if_neg h] at hxe
      exact Or.inl (hxe ▸ hx)
  · simp only [List.mem_append, List.mem_singleton] at he
    rcases he with h | h
    · exact Or.inl h
    · exact Or.inr h

/-- The cache-miss body of `introspectKeystoneToken` only ever writes the
validated, active introspection result. -/
theorem mem_introspectKeystoneTokenMiss (env : KeystoneEnv) (kc : KCache)
    (net : Option FetchResp) (now : Nat) (cacheKey : String)
    (e : String × Introspection × Nat)
    (he : e ∈ (introspectKeystoneToken.introspectKeystoneTokenMiss env kc net
      now cacheKey).2) :
    e ∈ kc ∨ e.2.1.active = true := by
  unfold introspectKeystoneToken.introspectKeystoneTokenMiss at he
  repeat' split at he
  all_goals
    first
      | exact Or.inl he
      | (rcases mem_kcacheSet _ _ _ e he with h | h
         · exact Or.inl h
         · subst h
           refine Or.inr ?_
           simp_all)

/-- C6: an introspection cache entry is only ever written for a result whose
`active` flag is true — both in the database-backed cache of
`validateViaIntrospection` and in the in-memory cache of
`introspectKeystoneToken`, every entry present after a call was either
already there or carries an active result. -/
theorem introspection_cache_only_active (cfg : ExternalAuthConfig)
    (w : JwtWorld) (c1 c2 : CacheDB) (env : KeystoneEnv) (kc : KCache)
    (net : Option FetchResp) (now : Nat) (token : String) :
    (∀ res c3,
      validateViaIntrospection cfg w c1 c2 net now token = .ok (res, c3) →
      ∀ e, e ∈ c3 → e ∈ c2 ∨ e.data.active = true) ∧
    (∀ e, e ∈ (introspectKeystoneToken env kc net now token).2 →
      e ∈ kc ∨ e.2.1.active = true) := by
  constructor
  · intro res c3 hok e he
    unfold validateViaIntrospection at hok
    cases hget : getCachedIntrospection c1 now (hashToken w token) with
    | some i =>
        simp only [hget, Except.ok.injEq, Prod.mk.injEq] at hok
        obtain ⟨h1, h2⟩ := hok
        subst h1
        subst h2
        exact Or.inl he
    | none =>
        simp only [hget] at hok
        cases hcall : callKeystoneIntrospect net with
        | ok i =>
            simp only [hcall] at hok
            by_cases hactive : i.active = true
            · rw [if_pos hactive] at hok
              simp only [Except.ok.injEq, Prod.mk.injEq] at hok
              obtain ⟨h1, h2⟩ := hok
              subst h1
              subst h2
              rcases mem_setCachedIntrospection c2 now (hashToken w token) _
                  cfg.cacheTTL e he with h | h
              · exact Or.inl h
              · subst h
                exact Or.inr hactive
            · rw [if_neg hactive] at hok
              simp only [Except.ok.injEq, Prod.mk.injEq] at hok
              obtain ⟨h1, h2⟩ := hok
              subst h1
              subst h2
              exact Or.inl he
        | error err =>
            simp only [hcall] at hok
            cases hc2 : getCachedIntrospection c2 now (hashToken w token) with
            | some cached =>
                simp only [hc2] at hok
                by_cases hact : cached.active = true
                · rw [if_pos hact] at hok
                  simp only [Except.ok.injEq, Prod.mk.injEq] at hok
                  obtain ⟨h1, h2⟩ := hok
                  subst h1
                  subst h2
                  exact Or.inl he
                · rw [if_neg hact] at hok
                  exact absurd hok (by simp)
            | none =>
                simp only [hc2] at hok
                exact absurd hok (by simp)
  · intro e he
    unfold introspectKeystoneToken at he
    split at he
    · exact Or.inl he
    · split at he
      · split at he
        · exact Or.inl he
        · exact mem_introspectKeystoneTokenMiss env kc net now _ e he
      · exact mem_introspectKeystoneTokenMiss env kc net now _ e he

/-- C6 witness: the concrete run that caches `introUser` writes exactly one
new entry, and that entry is active. -/
theorem introspection_cache_only_active_witness :
    validateViaIntrospection cfgC testWorld [] []
        (some { ok := true, body := introUser }) tNow "tok" =
      .ok (introUser,
        [{ name := cacheName (hashToken testWorld "tok"), data := introUser,
           belongsTo := "external_auth", expiresAt := 1700000300000 }]) ∧
    ({ name := cacheName (hashToken testWorld "tok"), data := introUser,
       belongsTo := "external_auth", expiresAt := 1700000300000 } ∈
        ([] : CacheDB) ∨
      Introspection.active introUser = true) :=
  ⟨by decide,
   (introspection_cache_only_active cfgC testWorld [] [] kenvC []
       (some { ok := true, body := introUser }) tNow "tok").1 introUser
     [{ name := cacheName (hashToken testWorld "tok"), data := introUser,
        belongsTo := "external_auth", expiresAt := 1700000300000 }]
     (by decide)
     { name := cacheName (hashToken testWorld "tok"), data := introUser,
       belongsTo := "external_auth", expiresAt := 1700000300000 }
     (by decide)⟩

/-- C4: on a cache miss whose remote introspection call fails (network error,
timeout, or non-2xx response), `validateViaIntrospection` uses a
still-unexpired active cache entry for the token's fingerprint when one
exists, and otherwise rejects — the failed call never yields a success of its
own. -/
theorem introspection_outage_fail_closed (cfg : ExternalAuthConfig)
    (w : JwtWorld) (c1 c2 : CacheDB) (net : Option FetchResp) (now : Nat)
    (token : String) (e : String)
    (hmiss : getCachedIntrospection c1 now (hashToken w token) = none)
    (hfail : callKeystoneIntrospect net = .error e) :
    (∀ cached,
      getCachedIntrospection c2 now (hashToken w token) = some cached →
      cached.active = true →
      validateViaIntrospection cfg w c1 c2 net now token = .ok (cached, c2)) ∧
    ((∀ cached,
        getCachedIntrospection c2 now (hashToken w token) = some cached →
        cached.active = false) →
      validateViaIntrospection cfg w c1 c2 net now token = .error e) := by
  constructor
  · intro cached hc hactive
    unfold validateViaIntrospection
    simp [hmiss, hfail, hc, hactive]
  · intro hnone
    unfold validateViaIntrospection
    simp only [hmiss, hfail]
    cases hc : getCachedIntrospection c2 now (hashToken w token) with
    | none => rfl
    | some cached =>
        simp [hnone cached hc]

/-- C4 witness: with an empty cache and an unreachable endpoint, the concrete
run is rejected. -/
theorem introspection_outage_fail_closed_witness :
    getCachedIntrospection [] tNow (hashToken testWorld "tok") = none ∧
    callKeystoneIntrospect none = .error "fetch failed" ∧
    validateViaIntrospection cfgC testWorld [] [] none tNow "tok" =
      .error "fetch failed" :=
  ⟨rfl, rfl,
   (introspection_outage_fail_closed cfgC testWorld [] [] none tNow "tok"
       "fetch failed" rfl rfl).2 (fun cached hc => by cases hc)⟩

/-- A default (non-admin) local user. -/
def u7 : LocalUser :=
  { id := 7, username := "bob", role := "default", suspended := false,
    externalId := some "u-7", externalProvider := some "keystone-core-api" }

/-- Request locals carrying a default principal and local user `u7`. -/
def localsU7 : Locals :=
  { multiUserMode := true, user := some u7, externalUser := none,
    principal := some (.defaultUser c3Principal), scope := [] }

/-- Request locals carrying a default principal but no resolvable user. -/
def localsNoUser : Locals :=
  { multiUserMode := true, user := none, externalUser := none,
    principal := some (.defaultUser c3Principal), scope := [] }

/-- A store with two workspaces of which only workspace 1 has `u7` as a
member. -/
def storeC : WorkspaceStore :=
  { workspaces := [{ id := 1 }, { id := 2 }], workspace_users := [(1, 7)] }

/-- An unconstrained workspace query. -/
def qC : PrismaQuery :=
  { whereClause := none, selectIdOnly := false, includeDocuments := false }

/-- The scoped form of `qC` for `u7`. -/
def q1C : PrismaQuery :=
  { whereClause := some { idEq := none, workspace_users := some { user_id := some 7 } },
    selectIdOnly := false, includeDocuments := false }

/-- C8: workspace queries are scoped per principal — admin requests pass
through unmodified; a non-admin request with a resolved local user always
yields a scoped query carrying the `workspace_users.some.user_id` membership
predicate, and every workspace that query returns is related to the caller by
a membership row; a non-admin request with no resolvable local user yields no
workspace and an empty id list rather than an unscoped result. -/
theorem workspace_scoping (store : WorkspaceStore) (locals : Locals)
    (q : PrismaQuery) (clause : Option WhereClause) :
    (isAdminRequest locals = true → scopeWorkspaceQuery locals q = some q) ∧
    (isAdminRequest locals = false →
      ∀ user, locals.user = some user →
        (scopeWorkspaceQuery locals q).isSome = true ∧
        ∀ q1, scopeWorkspaceQuery locals q = some q1 →
          q1.whereClause.bind WhereClause.workspace_users =
            some { user_id := some user.id } ∧
          ∀ ws, ws ∈ workspaceFindMany store q1 →
            (ws.id, user.id) ∈ store.workspace_users) ∧
    (isAdminRequest locals = false → locals.user = none →
      getWorkspaceForRequest store locals clause = none ∧
      getAccessibleWorkspaceIds store locals = []) := by
  refine ⟨fun hadmin => ?_, fun hadmin user huser => ?_, fun hadmin huser => ?_⟩
  · simp [scopeWorkspaceQuery, hadmin]
  · constructor
    · simp [scopeWorkspaceQuery, hadmin, huser]
    · intro q1 hq1
      simp only [scopeWorkspaceQuery, hadmin, Bool.false_eq_true, if_false,
        huser, Option.some.injEq] at hq1
      subst hq1
      refine ⟨rfl, ?_⟩
      intro ws hws
      simp only [workspaceFindMany, List.mem_filter] at hws
      obtain ⟨hmem, hmatch⟩ := hws
      simp only [matchesWhere, Bool.and_eq_true, List.any_eq_true,
        decide_eq_true_eq] at hmatch
      obtain ⟨-, m, hm, hm1, hm2⟩ := hmatch
      have : m = (ws.id, user.id) := by
        cases m
        simp_all
      exact this ▸ hm
  · constructor
    · simp [getWorkspaceForRequest, scopeWorkspaceQuery, hadmin, huser]
    · simp [getAccessibleWorkspaceIds, scopeWorkspaceQuery, hadmin, huser]

/-- C8 witness: for the concrete store, the scoped query of the non-admin
user 7 carries the membership predicate, returns workspace 1, whose
membership row is present; with no resolvable user the accessible id list is
empty. -/
theorem workspace_scoping_witness :
    isAdminRequest localsU7 = false ∧
    localsU7.user = some u7 ∧
    scopeWorkspaceQuery localsU7 qC = some q1C ∧
    WorkspaceRec.mk 1 ∈ workspaceFindMany storeC q1C ∧
    (1, 7) ∈ storeC.workspace_users ∧
    isAdminRequest localsNoUser = false ∧
    localsNoUser.user = none ∧
    getAccessibleWorkspaceIds storeC localsNoUser = [] :=
  ⟨rfl, rfl, by decide, by decide,
   by
     have h :=
       ((workspace_scoping storeC localsU7 qC none).2.1 rfl u7 rfl).2 q1C
         (by decide)
     exact h.2 ⟨1⟩ (by decide),
   rfl, rfl,
   ((workspace_scoping storeC localsNoUser qC none).2.2 rfl rfl).2⟩

/-- C10: when the external token verifies successfully end to end (bearer
extraction, structural decode, fresh `exp`, active introspection result with
matching issuer and audience) but the resolved local user is suspended,
`validateExternalToken` rejects with the distinct suspension outcome rather
than authenticating — and that outcome differs from the generic invalid-token
rejection. -/
theorem suspension_short_circuits (cfg : ExternalAuthConfig) (w : JwtWorld)
    (db : UserDB) (c1 c2 : CacheDB) (net : Option FetchResp)
    (sessionValid : Bool) (now : Nat) (authHeader : Option String)
    (token : String) (payload : JwtPayload) (introspection : Introspection)
    (c3 : CacheDB) (localUser : LocalUser) (db1 : UserDB)
    (henabled : cfg.enabled = true)
    (htok : bearerSlice authHeader = some token)
    (hdec : w.decode token = some payload)
    (hsub : payload.sub.isSome = true)
    (hexp : payload.exp.isSome = true)
    (hfresh : ¬(payload.exp.getD 0 + 60 < now / 1000))
    (hmode : cfg.mode = "introspect")
    (hintro : validateViaIntrospection cfg w c1 c2 net now token =
      .ok (introspection, c3))
    (hactive : introspection.active = true)
    (hiss : introspection.iss = cfg.issuer)
    (haud : introspection.aud = cfg.audience)
    (hsync : syncExternalUser db (externalUserOf introspection)
        (findByExternalId db (externalUserOf introspection).id) =
      .ok (localUser, db1))
    (hsusp : localUser.suspended = true) :
    validateExternalToken cfg w db c1 c2 net sessionValid now authHeader =
      (.respond 401 "User is suspended from system", db1, c3) ∧
    "User is suspended from system" ≠ "Invalid or expired token" := by
  refine ⟨?_, by decide⟩
  unfold validateExternalToken
  simp only [henabled, Bool.not_true, Bool.false_eq_true, if_false, htok, hdec,
    hsub, hexp, Bool.true_and, Bool.or_eq_true, Bool.not_eq_true]
  rw [if_neg (by simp [hsub])]
  rw [if_neg hfresh]
  rw [hmode]
  simp only [reduceIte, hintro, hactive, Bool.not_true, Bool.false_eq_true,
    if_false, hiss, haud, beq_self_eq_true, Bool.and_self, hsync, hsusp,
    if_true]

/-- A suspended local user already linked to external subject `u-42`. -/
def uSusp : LocalUser :=
  { id := 3, username := "u42", role := "default", suspended := true,
    externalId := some "u-42", externalProvider := some "keystone-core-api" }

/-- C10 witness: a fully valid external token for `u-42` is rejected with the
suspension outcome because the linked local user is suspended. -/
theorem suspension_short_circuits_witness :
    uSusp.suspended = true ∧
    validateExternalToken cfgC testWorld [uSusp] [] []
        (some { ok := true, body := introUser }) false tNow
        (some "Bearer ext.user.token") =
      (.respond 401 "User is suspended from system", [uSusp],
       [{ name := cacheName (hashToken testWorld "ext.user.token"),
          data := introUser, belongsTo := "external_auth",
          expiresAt := 1700000300000 }]) :=
  ⟨rfl,
   (suspension_short_circuits cfgC testWorld [uSusp] [] []
       (some { ok := true, body := introUser }) false tNow
       (some "Bearer ext.user.token") "ext.user.token" extJwtPayload introUser
       [{ name := cacheName (hashToken testWorld "ext.user.token"),
          data := introUser, belongsTo := "external_auth",
          expiresAt := 1700000300000 }]
       uSusp [uSusp]
       rfl (by decide) rfl rfl rfl (by decide) rfl (by decide) rfl rfl rfl
       (by decide) rfl).1⟩

/-- The local admin account behind the internally signed admin JWT. -/
def uAdmin : LocalUser :=
  { id := 7, username := "aliceadmin", role := "admin", suspended := false,
    externalId := none, externalProvider := none }

/-- The local user provisioned for `u-42` on a store already holding
`uAdmin`. -/
def extUser8 : LocalUser :=
  { id := 8, username := "user_u-42", role := "default", suspended := false,
    externalId := some "u-42", externalProvider := some "keystone-core-api" }

/-- C2: tier isolation.  (1) A valid API key yields an admin principal on the
admin-only middleware, and (2) every other bearer — admin-issued or
externally issued JWT — is rejected there.  On the shared-route middleware
(external auth enabled, multi-user): (3) a valid API key is rejected, (4) a
verified internal admin JWT for an unsuspended admin user is accepted, and
(5) a bearer that is neither an API key nor internally verifiable is handed
to external-token validation, whose outcome is returned unchanged. -/
theorem tier_isolation (apiKeys : List ApiKeyRec) (cfg : ExternalAuthConfig)
    (w : JwtWorld) (env : InternalEnv) (db : UserDB) (c1 c2 : CacheDB)
    (net : Option FetchResp) (sessionValid : Bool) (now : Nat)
    (mum : Bool) (authHeader : Option String) (token : String) :
    (∀ k, bearerSplit authHeader = some token →
      apiKeyGet apiKeys token = some k →
      adminOnlyAuth apiKeys mum authHeader =
        .next { multiUserMode := mum, user := none, externalUser := none,
                principal := some (.admin k), scope := [] }) ∧
    (bearerSplit authHeader = some token → apiKeyGet apiKeys token = none →
      adminOnlyAuth apiKeys mum authHeader =
        .respond 401 "Invalid API key. Admin endpoints require a valid API key.") ∧
    (cfg.enabled = true → mum = true → splitToken authHeader = some token →
      (apiKeyGet apiKeys token).isSome = true →
      validatedRequest cfg w env apiKeys db c1 c2 net sessionValid now mum
          authHeader =
        (.respond 401
          "API keys cannot be used on this endpoint. Use JWT authentication.",
         db, c2)) ∧
    (∀ decoded uid user,
      cfg.enabled = true → mum = true → splitToken authHeader = some token →
      apiKeyGet apiKeys token = none →
      decodeJWT w env now token = some decoded →
      decoded.id = some (.num uid) → idTruthy decoded.id = true →
      strTruthy decoded.username = true → roleTruthy decoded.role = true →
      userGetById db uid = some user →
      user.role = "admin" → user.suspended = false →
      validatedRequest cfg w env apiKeys db c1 c2 net sessionValid now mum
          authHeader =
        (.next { multiUserMode := true, user := some user,
                 externalUser := none, principal := none, scope := [] },
         db, c2)) ∧
    (cfg.enabled = true → mum = true → splitToken authHeader = some token →
      apiKeyGet apiKeys token = none →
      decodeJWT w env now token = none →
      validatedRequest cfg w env apiKeys db c1 c2 net sessionValid now mum
          authHeader =
        validateExternalToken cfg w db c1 c2 net sessionValid now authHeader) := by
  refine ⟨?_, ?_, ?_, ?_, ?_⟩
  · intro k htok hk
    simp only [adminOnlyAuth, htok, hk]
  · intro htok hk
    simp only [adminOnlyAuth, htok, hk]
  · intro hen hmum htok hkey
    obtain ⟨k, hk⟩ := Option.isSome_iff_exists.mp hkey
    unfold validatedRequest
    rw [hen, hmum]
    simp only [Bool.and_self, if_true, htok, hk]
  · intro decoded uid user hen hmum htok hkey hdec hid hidT husername hrole
      huser hadmin hnosusp
    have hidT2 : idTruthy (some (JsId.num uid)) = true := hid ▸ hidT
    unfold validatedRequest
    rw [hen, hmum]
    simp only [Bool.and_self, if_true, htok, hkey, hdec, hidT2, husername,
      hrole, Bool.and_self, if_true, hid, huser, hadmin, hnosusp]
    simp
  · intro hen hmum htok hkey hdec
    unfold validatedRequest
    rw [hen, hmum]
    simp only [Bool.and_self, if_true, htok, hkey, hdec]

/-- C2 witness: on the concrete fixtures the API key is accepted by the
admin-only middleware and rejected by the shared middleware; the signed
internal admin JWT is rejected by the admin-only middleware and accepted by
the shared middleware; the external token is handed to external validation by
the shared middleware and is accepted there, while the admin-only middleware
rejects it. -/
theorem tier_isolation_witness :
    adminOnlyAuth apiKeysC true (some "Bearer sk-admin-key") =
      .next { multiUserMode := true, user := none, externalUser := none,
              principal := some (.admin { secret := "sk-admin-key",
                                          createdBy := some 1 }),
              scope := [] } ∧
    validatedRequest cfgC testWorld ienvC apiKeysC [uAdmin] [] []
        (some { ok := true, body := introUser }) false tNow true
        (some "Bearer sk-admin-key") =
      (.respond 401
        "API keys cannot be used on this endpoint. Use JWT authentication.",
       [uAdmin], []) ∧
    adminOnlyAuth apiKeysC true (some "Bearer admin.signed.token") =
      .respond 401 "Invalid API key. Admin endpoints require a valid API key." ∧
    validatedRequest cfgC testWorld ienvC apiKeysC [uAdmin] [] []
        (some { ok := true, body := introUser }) false tNow true
        (some "Bearer admin.signed.token") =
      (.next { multiUserMode := true, user := some uAdmin,
               externalUser := none, principal := none, scope := [] },
       [uAdmin], []) ∧
    adminOnlyAuth apiKeysC true (some "Bearer ext.user.token") =
      .respond 401 "Invalid API key. Admin endpoints require a valid API key." ∧
    validatedRequest cfgC testWorld ienvC apiKeysC [uAdmin] [] []
        (some { ok := true, body := introUser }) false tNow true
        (some "Bearer ext.user.token") =
      validateExternalToken cfgC testWorld [uAdmin] [] []
        (some { ok := true, body := introUser }) false tNow
        (some "Bearer ext.user.token") ∧
    (validateExternalToken cfgC testWorld [uAdmin] [] []
        (some { ok := true, body := introUser }) false tNow
        (some "Bearer ext.user.token")).1 =
      MwResult.next
        { multiUserMode := false, user := some extUser8,
          externalUser := some (externalUserOf introUser), principal := none,
          scope := ["read", "write"] } :=
  ⟨(tier_isolation apiKeysC cfgC testWorld ienvC [uAdmin] [] []
       (some { ok := true, body := introUser }) false tNow true
       (some "Bearer sk-admin-key") "sk-admin-key").1
     { secret := "sk-admin-key", createdBy := some 1 } rfl rfl,
   (tier_isolation apiKeysC cfgC testWorld ienvC [uAdmin] [] []
       (some { ok := true, body := introUser }) false tNow true
       (some "Bearer sk-admin-key") "sk-admin-key").2.2.1 rfl rfl rfl rfl,
   (tier_isolation apiKeysC cfgC testWorld ienvC [uAdmin] [] []
       (some { ok := true, body := introUser }) false tNow true
       (some "Bearer admin.signed.token") "admin.signed.token").2.1 rfl rfl,
   (tier_isolation apiKeysC cfgC testWorld ienvC [uAdmin] [] []
       (some { ok := true, body := introUser }) false tNow true
       (some "Bearer admin.signed.token") "admin.signed.token").2.2.2.1
     adminJwtPayload 7 uAdmin rfl rfl rfl rfl (by decide) rfl (by decide)
     rfl rfl rfl rfl rfl,
   (tier_isolation apiKeysC cfgC testWorld ienvC [uAdmin] [] []
       (some { ok := true, body := introUser }) false tNow true
       (some "Bearer ext.user.token") "ext.user.token").2.1 rfl rfl,
   (tier_isolation apiKeysC cfgC testWorld ienvC [uAdmin] [] []
       (some { ok := true, body := introUser }) false tNow true
       (some "Bearer ext.user.token") "ext.user.token").2.2.2.2 rfl rfl rfl
     rfl (by decide),
   by decide⟩

/-! ### Provisioning helpers -/

/-- The stored role string of a role claim whose mapping passed the store's
validation (statement helper; meaningful under that hypothesis). -/
def mappedRole (r : Option RoleVal) : String :=
  (roleString (mapExternalRoleToAnythingLLMRole r)).getD ""

/-- The stored role after a sequence of role refreshes starting from
`current`. -/
def lastRole (current : String) : List (Option RoleVal) → String
  | [] => current
  | r :: rs => lastRole (mappedRole r) rs

/-- The record created for a fresh external identity on store `db0`. -/
def newUserRec (db0 : UserDB) (externalId : String) (email : Option String)
    (r : Option RoleVal) : LocalUser :=
  { id := nextId db0
    username := deriveUsername email externalId
    role := mappedRole r
    suspended := false
    externalId := some externalId
    externalProvider := some "keystone-core-api" }

/-- Every stored id is bounded by the running maximum. -/
theorem le_fold_of_mem (db : UserDB) (u : LocalUser) (hu : u ∈ db) :
    u.id ≤ (db.map (fun v => v.id)).foldr max 0 := by
  induction db with
  | nil => cases hu
  | cons v rest ih =>
      simp only [List.map_cons, List.foldr_cons]
      rcases List.mem_cons.mp hu with h | h
      · subst h
        exact Nat.le_max_left _ _
      · exact le_trans (ih h) (Nat.le_max_right _ _)

/-- `nextId` is fresh: no stored record carries it. -/
theorem ne_nextId_of_mem (db : UserDB) (u : LocalUser) (hu : u ∈ db) :
    u.id ≠ nextId db := by
  unfold nextId
  exact Nat.ne_of_lt (Nat.lt_succ_of_le (le_fold_of_mem db u hu))

/-- `prismaUsersUpdate` leaves a store untouched when no record carries the
updated id. -/
theorem prismaUsersUpdate_of_notmem (db : UserDB) (uid : Nat)
    (f : LocalUser → LocalUser) (h : ∀ v ∈ db, v.id ≠ uid) :
    prismaUsersUpdate db uid f = db := by
  unfold prismaUsersUpdate
  induction db with
  | nil => rfl
  | cons v rest ih =>
      simp only [List.map_cons]
      rw [if_neg (h v (List.mem_cons_self v rest)),
        ih (fun x hx => h x (List.mem_cons_of_mem v hx))]

/-- `prismaUsersUpdate` on a store ending in the updated record rewrites
exactly that record. -/
theorem prismaUsersUpdate_append_last (db : UserDB) (u : LocalUser)
    (uid : Nat) (f : LocalUser → LocalUser) (huid : u.id = uid)
    (hid : ∀ v ∈ db, v.id ≠ uid) :
    prismaUsersUpdate (db ++ [u]) uid f = db ++ [f u] := by
  unfold prismaUsersUpdate
  rw [List.map_append]
  have h1 := prismaUsersUpdate_of_notmem db uid f hid
  unfold prismaUsersUpdate at h1
  rw [h1]
  simp [huid]

/-- `findByExternalId` misses a store none of whose records carry the
identity. -/
theorem findByExternalId_eq_none (db : UserDB) (externalId : String)
    (h : ∀ v ∈ db, ¬(v.externalId = some externalId ∧
      v.externalProvider = some "keystone-core-api")) :
    findByExternalId db externalId = none := by
  unfold findByExternalId
  rw [List.find?_eq_none]
  intro v hv hcon
  simp only [Bool.and_eq_true, decide_eq_true_eq] at hcon
  exact h v hv hcon

/-- One authentication step for a fresh identity on a clean store: a single
new record is created, linked, and stored with the mapped role. -/
theorem authOnce_create (db0 : UserDB) (externalId : String)
    (email : Option String) (r : Option RoleVal)
    (hClean : ∀ v ∈ db0, ¬(v.externalId = some externalId ∧
      v.externalProvider = some "keystone-core-api"))
    (hUname : ∀ v ∈ db0, v.username ≠ deriveUsername email externalId)
    (hValid : usernameRegexTest (deriveUsername email externalId) = true)
    (hrole : roleString (mapExternalRoleToAnythingLLMRole r) =
      some (mappedRole r)) :
    authOnce db0 (extWithRole externalId email r) =
      .ok (newUserRec db0 externalId email r,
           db0 ++ [newUserRec db0 externalId email r]) := by
  have hfind : findByExternalId db0 externalId = none :=
    findByExternalId_eq_none db0 externalId hClean
  have huname : (db0.find? fun u =>
      u.username = validationsUsername (deriveUsername email externalId)) =
      none := by
    rw [List.find?_eq_none]
    intro v hv hcon
    simp only [validationsUsername, decide_eq_true_eq] at hcon
    exact hUname v hv hcon
  have hany1 : (db0.any fun u =>
      u.username = validationsUsername (deriveUsername email externalId)) =
      false := by
    rw [List.any_eq_false]
    intro v hv hcon
    simp only [validationsUsername, decide_eq_true_eq] at hcon
    exact hUname v hv hcon
  have hany2 : ((db0 ++
      [{ id := nextId db0,
         username := validationsUsername (deriveUsername email externalId),
         role := mappedRole r,
         suspended := false, externalId := none,
         externalProvider := none : LocalUser }]).any fun u =>
        u.id ≠ nextId db0 && u.externalId = some externalId &&
          u.externalProvider = some "keystone-core-api") = false := by
    rw [List.any_eq_false]
    intro v hv hcon
    simp only [Bool.and_eq_true, decide_eq_true_eq] at hcon
    rcases List.mem_append.mp hv with h | h
    · exact hClean v h ⟨hcon.1.2, hcon.2⟩
    · rcases List.mem_singleton.mp h with rfl
      simp at hcon
  unfold authOnce
  simp only [extWithRole]
  rw [hfind]
  unfold syncExternalUser
  simp only [huname, hValid, if_true, hrole, hany1, Bool.false_eq_true,
    if_false, hany2]
  rw [prismaUsersUpdate_append_last]
  · simp only [newUserRec, validationsUsername]
  · rfl
  · intro v hv
    exact ne_nextId_of_mem db0 v hv

/-- `prismaUsersUpdate` on a store holding the updated record in the middle
rewrites exactly that record. -/
theorem prismaUsersUpdate_middle (dbA dbB : UserDB) (u : LocalUser)
    (uid : Nat) (f : LocalUser → LocalUser) (huid : u.id = uid)
    (hidA : ∀ v ∈ dbA, v.id ≠ uid) (hidB : ∀ v ∈ dbB, v.id ≠ uid) :
    prismaUsersUpdate (dbA ++ u :: dbB) uid f = dbA ++ f u :: dbB := by
  unfold prismaUsersUpdate
  rw [List.map_append]
  have h1 := prismaUsersUpdate_of_notmem dbA uid f hidA
  unfold prismaUsersUpdate at h1
  rw [h1]
  simp only [List.map_cons]
  rw [if_pos huid]
  have h2 := prismaUsersUpdate_of_notmem dbB uid f hidB
  unfold prismaUsersUpdate at h2
  rw [h2]

/-- One authentication step on a store of the shape `dbA ++ u :: dbB` where
`u` is the sole record linked to the identity: the step only refreshes the
stored role, creating nothing. -/
theorem authOnce_refresh (dbA dbB : UserDB) (u : LocalUser)
    (externalId : String) (email : Option String) (r : Option RoleVal)
    (hne : externalId ≠ "")
    (hu1 : u.externalId = some externalId)
    (hu2 : u.externalProvider = some "keystone-core-api")
    (hA : ∀ v ∈ dbA, ¬(v.externalId = some externalId ∧
      v.externalProvider = some "keystone-core-api"))
    (hidA : ∀ v ∈ dbA, v.id ≠ u.id) (hidB : ∀ v ∈ dbB, v.id ≠ u.id)
    (hrole : roleString (mapExternalRoleToAnythingLLMRole r) =
      some (mappedRole r)) :
    authOnce (dbA ++ u :: dbB) (extWithRole externalId email r) =
      .ok ({ u with externalId := some externalId,
                    externalProvider := some "keystone-core-api" },
           dbA ++ { u with role := mappedRole r } :: dbB) := by
  have hfind : findByExternalId (dbA ++ u :: dbB) externalId = some u := by
    unfold findByExternalId
    have h1 : (dbA.find? fun v => v.externalId = some externalId &&
        v.externalProvider = some "keystone-core-api") = none := by
      rw [List.find?_eq_none]
      intro v hv hcon
      simp only [Bool.and_eq_true, decide_eq_true_eq] at hcon
      exact hA v hv hcon
    have h2 : ((u :: dbB).find? fun v => v.externalId = some externalId &&
        v.externalProvider = some "keystone-core-api") = some u :=
      List.find?_cons_of_pos _ (by simp [hu1, hu2])
    rw [List.find?_append, h1, h2]
    rfl
  have hnorm : strOptNorm u.externalId = some externalId := by
    rw [hu1]
    simp [strOptNorm, hne]
  unfold authOnce
  simp only [extWithRole]
  rw [hfind]
  unfold syncExternalUser
  simp only [hnorm, hrole]
  rw [if_neg (by simp)]
  rw [prismaUsersUpdate_middle dbA dbB u u.id _ rfl hidA hidB]

/-- Authenticating the same identity repeatedly against a store of the shape
`dbA ++ u :: dbB` keeps rewriting the same record's role. -/
theorem authSeq_refresh (dbA dbB : UserDB) (externalId : String)
    (email : Option String) (hne : externalId ≠ "")
    (hA : ∀ v ∈ dbA, ¬(v.externalId = some externalId ∧
      v.externalProvider = some "keystone-core-api"))
    (rs : List (Option RoleVal))
    (hroles : ∀ r ∈ rs, roleString (mapExternalRoleToAnythingLLMRole r) =
      some (mappedRole r)) :
    ∀ u : LocalUser, u.externalId = some externalId →
      u.externalProvider = some "keystone-core-api" →
      (∀ v ∈ dbA, v.id ≠ u.id) → (∀ v ∈ dbB, v.id ≠ u.id) →
      authSeq (dbA ++ u :: dbB) externalId email rs =
        .ok (dbA ++ { u with role := lastRole u.role rs } :: dbB) := by
  induction rs with
  | nil =>
      intro u hu1 hu2 _ _
      simp [authSeq, lastRole]
  | cons r rs ih =>
      intro u hu1 hu2 hidA hidB
      simp only [authSeq]
      rw [authOnce_refresh dbA dbB u externalId email r hne hu1 hu2 hA hidA
        hidB (hroles r (List.mem_cons_self r rs))]
      exact ih (fun r2 hr2 => hroles r2 (List.mem_cons_of_mem r hr2))
        { u with role := mappedRole r } hu1 hu2 hidA hidB

/-- The accumulated role refresh is the mapping of the last role claim. -/
theorem lastRole_getLast (c : String) (r : Option RoleVal)
    (rs : List (Option RoleVal)) :
    lastRole c (r :: rs) =
      mappedRole ((r :: rs).getLast (List.cons_ne_nil r rs)) := by
  induction rs generalizing c r with
  | nil => rfl
  | cons r2 rs ih =>
      rw [show lastRole c (r :: r2 :: rs) =
          lastRole (mappedRole r) (r2 :: rs) from rfl,
        ih]
      congr 1

/-- The record after `syncExternalUser` links a pre-existing unlinked local
account to the identity. -/
def linkedU (u0 : LocalUser) (externalId : String) (r : Option RoleVal) :
    LocalUser :=
  { u0 with
    externalId := some externalId
    externalProvider := some "keystone-core-api"
    role := mappedRole r }

/-- One authentication step that links a pre-existing local account found by
the derived username: the account is linked and role-refreshed in place. -/
theorem authOnce_link (dbA dbB : UserDB) (u0 : LocalUser)
    (externalId : String) (email : Option String) (r : Option RoleVal)
    (hne : externalId ≠ "")
    (hA : ∀ v ∈ dbA, ¬(v.externalId = some externalId ∧
      v.externalProvider = some "keystone-core-api"))
    (hB : ∀ v ∈ dbB, ¬(v.externalId = some externalId ∧
      v.externalProvider = some "keystone-core-api"))
    (hnorm0 : strOptNorm u0.externalId = none)
    (hument : u0.username = deriveUsername email externalId)
    (huA : ∀ v ∈ dbA, v.username ≠ deriveUsername email externalId)
    (hidA : ∀ v ∈ dbA, v.id ≠ u0.id) (hidB : ∀ v ∈ dbB, v.id ≠ u0.id)
    (hrole : roleString (mapExternalRoleToAnythingLLMRole r) =
      some (mappedRole r)) :
    authOnce (dbA ++ u0 :: dbB) (extWithRole externalId email r) =
      .ok (linkedU u0 externalId r,
           dbA ++ linkedU u0 externalId r :: dbB) := by
  have hu0ne : u0.externalId ≠ some externalId := by
    intro h
    rw [h] at hnorm0
    simp [strOptNorm, hne] at hnorm0
  have hfind : findByExternalId (dbA ++ u0 :: dbB) externalId = none := by
    apply findByExternalId_eq_none
    intro v hv hcon
    rcases List.mem_append.mp hv with h | h
    · exact hA v h hcon
    · rcases List.mem_cons.mp h with h | h
      · subst h
        exact hu0ne hcon.1
      · exact hB v h hcon
  have huname : ((dbA ++ u0 :: dbB).find? fun u =>
      u.username = validationsUsername (deriveUsername email externalId)) =
      some u0 := by
    have h1 : (dbA.find? fun u =>
        u.username = validationsUsername (deriveUsername email externalId)) =
        none := by
      rw [List.find?_eq_none]
      intro v hv hcon
      simp only [validationsUsername, decide_eq_true_eq] at hcon
      exact huA v hv hcon
    have h2 : ((u0 :: dbB).find? fun u =>
        u.username = validationsUsername (deriveUsername email externalId)) =
        some u0 :=
      List.find?_cons_of_pos _ (by simp [validationsUsername, hument])
    rw [List.find?_append, h1, h2]
    rfl
  have hconf : linkConflict (dbA ++ u0 :: dbB) u0.id externalId = false := by
    rw [Bool.eq_false_iff]
    intro hcon
    unfold linkConflict at hcon
    rw [List.any_eq_true] at hcon
    obtain ⟨v, hv, hvp⟩ := hcon
    simp only [Bool.and_eq_true, decide_eq_true_eq] at hvp
    rcases List.mem_append.mp hv with h | h
    · exact hA v h ⟨hvp.1.2, hvp.2⟩
    · rcases List.mem_cons.mp h with h | h
      · subst h
        exact hu0ne hvp.1.2
      · exact hB v h ⟨hvp.1.2, hvp.2⟩
  unfold authOnce
  simp only [extWithRole]
  rw [hfind]
  unfold syncExternalUser
  simp only [extWithRole, huname, hnorm0, if_true, hrole, hconf,
    Bool.false_eq_true, if_false]
  rw [prismaUsersUpdate_middle dbA dbB u0 u0.id _ rfl hidA hidB]
  rfl

/-- C9: idempotent provisioning.  For a non-empty sequence of role claims for
one external identity, each of which maps to a storable role string (so each
authentication actually succeeds — a role claim naming an `Object.prototype`
member would instead make `prisma.users.create`/`update` throw): (create
case) on a store with no record for the identity and no record with its
derived username, the first authentication creates exactly one record and
every later one reuses and role-refreshes it, leaving the store with exactly
one record for the identity, whose role is the mapping of the latest claim;
(link case) on a store holding one unlinked record with the derived username,
the first authentication links that record rather than creating a new one,
and the store keeps its size with exactly one record for the identity,
role-refreshed to the latest claim. -/
theorem idempotent_provisioning (externalId : String) (email : Option String)
    (roles : List (Option RoleVal)) (h0 : roles ≠ []) (hne : externalId ≠ "")
    (hRoles : ∀ r ∈ roles, roleString (mapExternalRoleToAnythingLLMRole r) =
      some (mappedRole r)) :
    (∀ db0 : UserDB,
      (∀ v ∈ db0, ¬(v.externalId = some externalId ∧
        v.externalProvider = some "keystone-core-api")) →
      (∀ v ∈ db0, v.username ≠ deriveUsername email externalId) →
      usernameRegexTest (deriveUsername email externalId) = true →
      authSeq db0 externalId email roles =
        .ok (db0 ++
          [{ id := nextId db0,
             username := deriveUsername email externalId,
             role := mappedRole (roles.getLast h0),
             suspended := false,
             externalId := some externalId,
             externalProvider := some "keystone-core-api" }]) ∧
      ∀ dbN, authSeq db0 externalId email roles = .ok dbN →
        (dbN.filter fun v => v.externalId = some externalId &&
          v.externalProvider = some "keystone-core-api").length = 1 ∧
        dbN.length = db0.length + 1) ∧
    (∀ (dbA dbB : UserDB) (u0 : LocalUser),
      (∀ v ∈ dbA, ¬(v.externalId = some externalId ∧
        v.externalProvider = some "keystone-core-api")) →
      (∀ v ∈ dbB, ¬(v.externalId = some externalId ∧
        v.externalProvider = some "keystone-core-api")) →
      strOptNorm u0.externalId = none →
      u0.username = deriveUsername email externalId →
      (∀ v ∈ dbA, v.username ≠ deriveUsername email externalId) →
      (∀ v ∈ dbA, v.id ≠ u0.id) → (∀ v ∈ dbB, v.id ≠ u0.id) →
      authSeq (dbA ++ u0 :: dbB) externalId email roles =
        .ok (dbA ++
          { u0 with
            externalId := some externalId,
            externalProvider := some "keystone-core-api",
            role := mappedRole (roles.getLast h0) }
          :: dbB) ∧
      ∀ dbN, authSeq (dbA ++ u0 :: dbB) externalId email roles = .ok dbN →
        (dbN.filter fun v => v.externalId = some externalId &&
          v.externalProvider = some "keystone-core-api").length = 1 ∧
        dbN.length = (dbA ++ u0 :: dbB).length) := by
  obtain ⟨r, rs, rfl⟩ : ∃ r rs, roles = r :: rs := by
    cases roles with
    | nil => exact absurd rfl h0
    | cons r rs => exact ⟨r, rs, rfl⟩
  constructor
  · intro db0 hClean hUname hValid
    have hmain : authSeq db0 externalId email (r :: rs) =
        .ok (db0 ++
          [{ id := nextId db0,
             username := deriveUsername email externalId,
             role := mappedRole ((r :: rs).getLast (List.cons_ne_nil r rs)),
             suspended := false,
             externalId := some externalId,
             externalProvider := some "keystone-core-api" }]) := by
      simp only [authSeq]
      rw [authOnce_create db0 externalId email r hClean hUname hValid
        (hRoles r (List.mem_cons_self r rs))]
      have hseq := authSeq_refresh db0 [] externalId email hne hClean rs
        (fun r2 hr2 => hRoles r2 (List.mem_cons_of_mem r hr2))
        (newUserRec db0 externalId email r) rfl rfl
        (fun v hv => ne_nextId_of_mem db0 v hv)
        (fun v hv => absurd hv (List.not_mem_nil v))
      rw [show lastRole (newUserRec db0 externalId email r).role rs =
          mappedRole ((r :: rs).getLast (List.cons_ne_nil r rs)) from
        lastRole_getLast "" r rs] at hseq
      exact hseq
    refine ⟨hmain, ?_⟩
    intro dbN hdbN
    rw [hmain] at hdbN
    obtain rfl := (Except.ok.inj hdbN).symm
    constructor
    · rw [List.filter_append]
      have h1 : (db0.filter fun v => v.externalId = some externalId &&
          v.externalProvider = some "keystone-core-api") = [] := by
        rw [List.filter_eq_nil_iff]
        intro v hv hcon
        simp only [Bool.and_eq_true, decide_eq_true_eq] at hcon
        exact hClean v hv hcon
      rw [h1]
      simp
    · simp
  · intro dbA dbB u0 hA hB hnorm0 hument huA hidA hidB
    have hmain : authSeq (dbA ++ u0 :: dbB) externalId email (r :: rs) =
        .ok (dbA ++
          { u0 with
            externalId := some externalId,
            externalProvider := some "keystone-core-api",
            role := mappedRole ((r :: rs).getLast (List.cons_ne_nil r rs)) }
          :: dbB) := by
      simp only [authSeq]
      rw [authOnce_link dbA dbB u0 externalId email r hne hA hB hnorm0
        hument huA hidA hidB (hRoles r (List.mem_cons_self r rs))]
      have hseq := authSeq_refresh dbA dbB externalId email hne hA rs
        (fun r2 hr2 => hRoles r2 (List.mem_cons_of_mem r hr2))
        (linkedU u0 externalId r) rfl rfl hidA hidB
      rw [show lastRole (linkedU u0 externalId r).role rs =
          mappedRole ((r :: rs).getLast (List.cons_ne_nil r rs)) from
        lastRole_getLast "" r rs] at hseq
      exact hseq
    refine ⟨hmain, ?_⟩
    intro dbN hdbN
    rw [hmain] at hdbN
    obtain rfl := (Except.ok.inj hdbN).symm
    have hfA : (dbA.filter fun v => v.externalId = some externalId &&
        v.externalProvider = some "keystone-core-api") = [] := by
      rw [List.filter_eq_nil_iff]
      intro v hv hcon
      simp only [Bool.and_eq_true, decide_eq_true_eq] at hcon
      exact hA v hv hcon
    have hfB : (dbB.filter fun v => v.externalId = some externalId &&
        v.externalProvider = some "keystone-core-api") = [] := by
      rw [List.filter_eq_nil_iff]
      intro v hv hcon
      simp only [Bool.and_eq_true, decide_eq_true_eq] at hcon
      exact hB v hv hcon
    constructor
    · rw [List.filter_append, hfA, List.filter_cons_of_pos (by simp), hfB]
      simp
    · simp

/-- C9 witness: authenticating the fresh identity `u-42` twice, first with
role `user` and then with role `admin`, creates exactly one record carrying
the mapped latest role; starting instead from a store holding the unlinked
pre-provisioned account `user_u-42`, the same sequence links that record in
place. -/
theorem idempotent_provisioning_witness :
    usernameRegexTest (deriveUsername none "u-42") = true ∧
    authSeq [] "u-42" none [some (.str "user"), some (.str "admin")] =
      .ok [{ id := 1, username := "user_u-42", role := "admin",
             suspended := false, externalId := some "u-42",
             externalProvider := some "keystone-core-api" }] ∧
    authSeq [{ id := 5, username := "user_u-42", role := "default",
               suspended := false, externalId := none,
               externalProvider := none }] "u-42" none
        [some (.str "user"), some (.str "admin")] =
      .ok [{ id := 5, username := "user_u-42", role := "admin",
             suspended := false, externalId := some "u-42",
             externalProvider := some "keystone-core-api" }] :=
  ⟨by decide,
   by
     have h := ((idempotent_provisioning "u-42" none
       [some (.str "user"), some (.str "admin")] (by decide) (by decide)
       (by decide)).1 []
       (fun v hv => absurd hv (List.not_mem_nil v))
       (fun v hv => absurd hv (List.not_mem_nil v)) (by decide)).1
     simpa using h,
   by
     have h := ((idempotent_provisioning "u-42" none
       [some (.str "user"), some (.str "admin")] (by decide) (by decide)
       (by decide)).2 []
       [] { id := 5, username := "user_u-42", role := "default",
            suspended := false, externalId := none, externalProvider := none }
       (fun v hv => absurd hv (List.not_mem_nil v))
       (fun v hv => absurd hv (List.not_mem_nil v)) rfl (by decide)
       (fun v hv => absurd hv (List.not_mem_nil v))
       (fun v hv => absurd hv (List.not_mem_nil v))
       (fun v hv => absurd hv (List.not_mem_nil v))).1
     simpa using h⟩

end LayerOne
